import Mathlib

/-
Verification development for the mini-compiler pipeline
(lexer, parser, symbol-table builder, IR generator, structured emitter).

Each Python component is shallowly embedded as a pure Lean function:
mutable instance state becomes explicitly threaded state, exceptions
become `Except` values or an `Option`-error component carried next to the
state, and Python lists/dicts become Lean lists/association lists.

Modelling conventions, stated once:
* Character classification (isalpha, isdigit, isalnum, lower()) is
  modelled with the ASCII semantics of Lean `Char` predicates; all inputs
  of interest are ASCII.
* Python float literals are only ever stored and printed by the pipeline
  (never computed with), so a float produced by `float(s)` for a literal
  token `s` is modelled by the constructor `IRVal.f s` / `PyVal.vfloat s`
  carrying the literal text.
* Error strings are modelled by inductive error values carrying the same
  information (kind and interpolated names) as the Python message text.
-/

namespace MiniC

/-- Token kinds, one constructor per member of the Python TokenType enum. -/
inductive TokenType where
  | IF | ELSE | WHILE | FOR | FUNCTION | RETURN | VAR | CONST | PRINT
  | INT | FLOAT | STRING | BOOLEAN
  | NUMBER | STRING_LITERAL | TRUE | FALSE
  | IDENTIFIER
  | PLUS | MINUS | MULTIPLY | DIVIDE | MODULO
  | EQUAL | NOT_EQUAL | LESS_THAN | GREATER_THAN | LESS_EQUAL | GREATER_EQUAL
  | AND | OR | NOT
  | ASSIGN
  | SEMICOLON | COMMA | DOT | COLON
  | LPAREN | RPAREN | LBRACE | RBRACE | LBRACKET | RBRACKET
  | EOF | NEWLINE | COMMENT
deriving DecidableEq

/-- A lexical token: kind, lexeme text, source line and column. -/
structure Token where
  type : TokenType
  value : String
  line : Nat
  column : Nat
deriving DecidableEq

/-- The keyword table (Python dict KEYWORDS), as an association list. -/
def KEYWORDS : List (String × TokenType) :=
  [("if", .IF), ("else", .ELSE), ("while", .WHILE), ("for", .FOR),
   ("function", .FUNCTION), ("return", .RETURN), ("var", .VAR),
   ("const", .CONST), ("print", .PRINT), ("int", .INT), ("float", .FLOAT),
   ("string", .STRING), ("boolean", .BOOLEAN), ("true", .TRUE),
   ("false", .FALSE)]

/-- `KEYWORDS.get(s)` of the Python dict. -/
def keywordLookup (s : String) : Option TokenType :=
  (KEYWORDS.find? (fun p => p.1 == s)).map (fun p => p.2)

/-- Python str.lower(), per-character (ASCII). -/
def pyLower (s : String) : String :=
  String.mk (s.toList.map Char.toLower)

/-- Classification done at the end of Lexer.read_identifier:
`KEYWORDS.get(identifier.lower(), TokenType.IDENTIFIER)`. -/
def identTokenType (ident : String) : TokenType :=
  (keywordLookup (pyLower ident)).getD .IDENTIFIER

/-- Fatal lexical errors. `unterminatedString` models the exception
raised at the end of `read_string`; `unexpectedChar` the final `else` of
`tokenize`; `strTypeError` models the TypeError Python raises when a
backslash escape is the last character of the input
(`string_value += self.current_char()` with current_char None);
`fuelExhausted` is a recursion-budget artifact, unreachable for the
budget `tokenize` supplies. -/
inductive LexErr where
  | unterminatedString (line : Nat)
  | unexpectedChar (c : Char) (line : Nat) (column : Nat)
  | strTypeError
  | fuelExhausted
deriving DecidableEq

/-- Characters skipped by Lexer.skip_whitespace (' ', tab, CR). -/
def isPyWs (c : Char) : Bool :=
  c = ' ' || c = '\t' || c = '\r'

/-- Lexer.skip_whitespace: consume spaces/tabs/CRs, bumping the column
(none of them is a newline, so the line is unchanged). -/
def skipWhitespaceL : List Char → Nat → List Char × Nat
  | c :: cs, col => if isPyWs c then skipWhitespaceL cs (col + 1) else (c :: cs, col)
  | [], col => ([], col)

/-- Lexer.skip_comment: consume characters up to (not including) the next
newline; the line number is unchanged. -/
def skipCommentL : List Char → Nat → List Char × Nat
  | c :: cs, col => if c = '\n' then (c :: cs, col) else skipCommentL cs (col + 1)
  | [], col => ([], col)

/-- Lexer.read_number's scan: consume digits and at most one dot; a second
dot stops the scan (Python `break`). Returns the remaining input and the
scanned text. -/
def readNumberL : List Char → Bool → String → List Char × String
  | c :: cs, hasDot, acc =>
    if c.isDigit then readNumberL cs hasDot (acc.push c)
    else if c = '.' then
      if hasDot then (c :: cs, acc) else readNumberL cs true (acc.push c)
    else (c :: cs, acc)
  | [], _, acc => ([], acc)

/-- Lexer.read_string's scan loop, entered after the opening quote was
consumed. `q` is the quote character; line/column are the lexer position.
On a closing quote returns the value, remaining input, line, column; at
end of input returns the unterminated-string error with the CURRENT line. -/
def readStringL (q : Char) : List Char → Nat → Nat → String →
    Except LexErr (String × List Char × Nat × Nat)
  | c :: cs, line, col, acc =>
    if c = q then .ok (acc, cs, line, col + 1)
    else if c = '\\' then
      match cs with
      | [] => .error .strTypeError
      | d :: ds =>
        let acc1 := if d = 'n' then acc.push '\n'
          else if d = 't' then acc.push '\t'
          else if d = '\\' then acc.push '\\'
          else if d = q then acc.push q
          else acc.push d
        if d = '\n' then readStringL q ds (line + 1) 1 acc1
        else readStringL q ds line (col + 2) acc1
    else
      if c = '\n' then readStringL q cs (line + 1) 1 (acc.push c)
      else readStringL q cs line (col + 1) (acc.push c)
  | [], line, _, _ => .error (.unterminatedString line)

/-- Characters that may continue an identifier (Python isalnum or `_`). -/
def isIdentChar (c : Char) : Bool :=
  c.isAlphanum || c = '_'

/-- Lexer.read_identifier's scan: consume alphanumerics/underscores. -/
def readIdentifierL : List Char → String → List Char × String
  | c :: cs, acc =>
    if isIdentChar c then readIdentifierL cs (acc.push c) else (c :: cs, acc)
  | [], acc => ([], acc)

/-- One- and two-character operator/delimiter matching of Lexer.tokenize:
given the current character and the rest, returns the token kind, lexeme
and number of characters consumed, or none for an unrecognized character. -/
def matchOperator (c : Char) (cs : List Char) : Option (TokenType × String × Nat) :=
  if c = '=' ∧ cs.head? = some '=' then some (.EQUAL, "==", 2)
  else if c = '!' ∧ cs.head? = some '=' then some (.NOT_EQUAL, "!=", 2)
  else if c = '<' ∧ cs.head? = some '=' then some (.LESS_EQUAL, "<=", 2)
  else if c = '>' ∧ cs.head? = some '=' then some (.GREATER_EQUAL, ">=", 2)
  else if c = '&' ∧ cs.head? = some '&' then some (.AND, "&&", 2)
  else if c = '|' ∧ cs.head? = some '|' then some (.OR, "||", 2)
  else if c = '+' then some (.PLUS, "+", 1)
  else if c = '-' then some (.MINUS, "-", 1)
  else if c = '*' then some (.MULTIPLY, "*", 1)
  else if c = '/' then some (.DIVIDE, "/", 1)
  else if c = '%' then some (.MODULO, "%", 1)
  else if c = '=' then some (.ASSIGN, "=", 1)
  else if c = '<' then some (.LESS_THAN, "<", 1)
  else if c = '>' then some (.GREATER_THAN, ">", 1)
  else if c = '!' then some (.NOT, "!", 1)
  else if c = ';' then some (.SEMICOLON, ";", 1)
  else if c = ',' then some (.COMMA, ",", 1)
  else if c = '.' then some (.DOT, ".", 1)
  else if c = ':' then some (.COLON, ":", 1)
  else if c = '(' then some (.LPAREN, "(", 1)
  else if c = ')' then some (.RPAREN, ")", 1)
  else if c = '{' then some (.LBRACE, "\x7b", 1)
  else if c = '}' then some (.RBRACE, "\x7d", 1)
  else if c = '[' then some (.LBRACKET, "[", 1)
  else if c = ']' then some (.RBRACKET, "]", 1)
  else none

/-- The main loop of Lexer.tokenize. Each iteration consumes at least one
character, so a budget of `length + 1` never runs out. -/
def tokenizeLoop : Nat → List Char → Nat → Nat → List Token →
    Except LexErr (List Token)
  | 0, _, _, _, _ => .error .fuelExhausted
  | fuel + 1, rest0, line, col0, acc =>
    match rest0 with
    | [] => .ok (acc ++ [⟨.EOF, "EOF", line, col0⟩])
    | _ =>
      match skipWhitespaceL rest0 col0 with
      | (rest, col) =>
        match rest with
        | [] => .ok (acc ++ [⟨.EOF, "EOF", line, col⟩])
        | c :: cs =>
          if c = '/' ∧ cs.head? = some '/' then
            match skipCommentL (c :: cs) col with
            | (rest1, col1) => tokenizeLoop fuel rest1 line col1 acc
          else if c = '\n' then
            tokenizeLoop fuel cs (line + 1) 1 (acc ++ [⟨.NEWLINE, "\\n", line, col⟩])
          else if c.isDigit then
            match readNumberL (c :: cs) false "" with
            | (rest1, numStr) =>
              tokenizeLoop fuel rest1 line (col + numStr.length)
                (acc ++ [⟨.NUMBER, numStr, line, col⟩])
          else if c = '"' ∨ c = '\'' then
            match readStringL c cs line (col + 1) "" with
            | .ok (v, rest1, line1, col1) =>
              tokenizeLoop fuel rest1 line1 col1
                (acc ++ [⟨.STRING_LITERAL, v, line1, col⟩])
            | .error e => .error e
          else if c.isAlpha ∨ c = '_' then
            match readIdentifierL (c :: cs) "" with
            | (rest1, ident) =>
              tokenizeLoop fuel rest1 line (col + ident.length)
                (acc ++ [⟨identTokenType ident, ident, line, col⟩])
          else
            match matchOperator c cs with
            | some (tt, lexeme, n) =>
              tokenizeLoop fuel ((c :: cs).drop n) line (col + n)
                (acc ++ [⟨tt, lexeme, line, col⟩])
            | none => .error (.unexpectedChar c line col)

/-- Lexer.tokenize: scan a whole source text into a token list terminated
by an EOF token, or abort with the first fatal error. -/
def tokenize (src : String) : Except LexErr (List Token) :=
  tokenizeLoop (src.toList.length + 1) src.toList 1 1 []

/-! ### AST (ast_nodes.py) -/

/-- Python int() on the digit strings produced by the number scanner. -/
def pyStrToInt (s : String) : Int :=
  Int.ofNat (s.toList.foldl (fun a c => a * 10 + (c.toNat - 48)) 0)

/-- The value stored by NumberLiteral.__init__:
`float(value) if '.' in value else int(value)`; the float case keeps the
literal text (see the module conventions). -/
inductive NumVal where
  | intV (n : Int)
  | floatV (raw : String)
deriving DecidableEq

/-- NumberLiteral construction. -/
def mkNumVal (s : String) : NumVal :=
  if s.toList.contains '.' then .floatV s else .intV (pyStrToInt s)

/-- Expression nodes. Binary/unary operators keep the operator Token,
exactly as the Python AST does. -/
inductive Expr where
  | binary (left : Expr) (op : Token) (right : Expr)
  | unary (op : Token) (operand : Expr)
  | assign (identifier : String) (value : Expr)
  | call (callee : Expr) (args : List Expr)
  | ident (name : String)
  | num (value : NumVal)
  | strLit (value : String)
  | boolLit (value : Bool)

/-- Statement and declaration nodes. -/
inductive Stmt where
  | varDecl (varType : String) (identifier : String) (initializer : Option Expr)
  | funcDecl (name : String) (params : List String) (body : Stmt)
  | block (stmts : List Stmt)
  | ifS (condition : Expr) (thenBranch : Stmt) (elseBranch : Option Stmt)
  | whileS (condition : Expr) (body : Stmt)
  | forS (init : Option Stmt) (condition : Option Expr) (update : Option Expr) (body : Stmt)
  | ret (value : Option Expr)
  | printS (expression : Expr)
  | exprS (expression : Expr)

/-- The root Program node. -/
structure Program where
  stmts : List Stmt

/-! ### Parser (parser.py) -/

/-- Parse errors (ParseError exceptions), as tagged values carrying the
same data the Python message text interpolates. `fuelExhausted` is a
recursion-budget artifact, unreachable for the budget `parseTokens`
supplies. -/
inductive ParseErr where
  | expectedTok (message : String) (line : Nat) (column : Nat) (found : String)
  | invalidAssignTarget
  | unexpectedPrimary (found : String) (line : Nat)
  | fuelExhausted
deriving DecidableEq

/-- Parser state: the newline-filtered token list, the cursor, and the
collected error list. -/
structure PState where
  tokens : List Token
  current : Nat
  errors : List ParseErr
deriving DecidableEq

/-- Default token used to totalize out-of-range list indexing; the parser
never actually reads past the terminating EOF token. -/
def eofTok : Token := ⟨.EOF, "EOF", 0, 0⟩

/-- Parser.peek. -/
def pPeek (st : PState) : Token := st.tokens.getD st.current eofTok

/-- Parser.previous; Python `tokens[current - 1]` indexes the LAST token
when current = 0 (negative indexing). -/
def pPrev (st : PState) : Token :=
  if st.current = 0 then st.tokens.getLast?.getD eofTok
  else st.tokens.getD (st.current - 1) eofTok

/-- Parser.is_at_end. -/
def pIsAtEnd (st : PState) : Bool := (pPeek st).type = .EOF

/-- Parser.advance (the cursor move; Python also returns previous()). -/
def pAdvance (st : PState) : PState :=
  if pIsAtEnd st then st else { st with current := st.current + 1 }

/-- Parser.check. -/
def pCheck (st : PState) (tt : TokenType) : Bool :=
  if pIsAtEnd st then false else (pPeek st).type = tt

/-- Parser.match: if the current token has one of the given kinds,
consume it. -/
def pMatch (st : PState) (types : List TokenType) : Bool × PState :=
  if types.any (fun tt => pCheck st tt) then (true, pAdvance st) else (false, st)

/-- Parser.consume: the expected token or a ParseError (state unmoved). -/
def pConsume (st : PState) (tt : TokenType) (msg : String) :
    Except ParseErr Token × PState :=
  if pCheck st tt then (.ok (pPeek st), pAdvance st)
  else
    let cur := pPeek st
    (.error (.expectedTok msg cur.line cur.column cur.value), st)

/-- The statement-start token kinds at which `synchronize` stops. -/
def syncTypes : List TokenType :=
  [.IF, .FOR, .WHILE, .VAR, .FUNCTION, .RETURN, .PRINT]

theorem current_lt_of_not_atEnd {st : PState} (h : pIsAtEnd st = false) :
    st.current < st.tokens.length := by
  by_contra hc
  push_neg at hc
  simp only [pIsAtEnd, pPeek, List.getD_eq_getElem?_getD,
    List.getElem?_eq_none (by omega : st.tokens.length ≤ st.current)] at h
  simp [eofTok, Option.getD] at h

/-- The scanning loop of Parser.synchronize (after the initial advance):
stop at end of input, or just after a consumed semicolon, or at a token
that begins a new statement; otherwise discard the current token. -/
def pSyncLoop (st : PState) : PState :=
  if h : pIsAtEnd st then st
  else if (pPrev st).type = .SEMICOLON then st
  else if syncTypes.contains (pPeek st).type then st
  else pSyncLoop (pAdvance st)
termination_by st.tokens.length - st.current
decreasing_by
  have h2 : pIsAtEnd st = false := by simpa using h
  have hlt := current_lt_of_not_atEnd h2
  simp [pAdvance, h2]
  omega

/-- Parser.synchronize: consume the offending token, then scan forward. -/
def pSynchronize (st : PState) : PState := pSyncLoop (pAdvance st)

mutual

/-- Parser.declaration (its try/except re-raises unchanged). -/
def pDeclaration : Nat → PState → Except ParseErr Stmt × PState
  | 0, st => (.error .fuelExhausted, st)
  | fuel + 1, st =>
    match pMatch st [.VAR, .CONST] with
    | (true, st1) => pVarDeclaration fuel st1
    | (false, st1) =>
      match pMatch st1 [.FUNCTION] with
      | (true, st2) => pFunctionDeclaration fuel st2
      | (false, st2) => pStatement fuel st2

/-- Parser.var_declaration (entered after `var`/`const` was consumed). -/
def pVarDeclaration : Nat → PState → Except ParseErr Stmt × PState
  | 0, st => (.error .fuelExhausted, st)
  | fuel + 1, st =>
    let varType := (pPrev st).value
    match pConsume st .IDENTIFIER "Se esperaba nombre de variable" with
    | (.error e, st1) => (.error e, st1)
    | (.ok nameTok, st1) =>
      match pMatch st1 [.ASSIGN] with
      | (true, st2) =>
        match pExpression fuel st2 with
        | (.error e, st3) => (.error e, st3)
        | (.ok init, st3) =>
          match pConsume st3 .SEMICOLON
              "Se esperaba punto y coma después de declaración de variable" with
          | (.error e, st4) => (.error e, st4)
          | (.ok _, st4) => (.ok (.varDecl varType nameTok.value (some init)), st4)
      | (false, st2) =>
        match pConsume st2 .SEMICOLON
            "Se esperaba punto y coma después de declaración de variable" with
        | (.error e, st3) => (.error e, st3)
        | (.ok _, st3) => (.ok (.varDecl varType nameTok.value none), st3)

/-- Parser.function_declaration (entered after `function` was consumed). -/
def pFunctionDeclaration : Nat → PState → Except ParseErr Stmt × PState
  | 0, st => (.error .fuelExhausted, st)
  | fuel + 1, st =>
    match pConsume st .IDENTIFIER "Se esperaba nombre de función" with
    | (.error e, st1) => (.error e, st1)
    | (.ok nameTok, st1) =>
      match pConsume st1 .LPAREN "Se esperaba paréntesis después del nombre de función" with
      | (.error e, st2) => (.error e, st2)
      | (.ok _, st2) =>
        let firstParam :
            Except ParseErr (List Token) × PState :=
          if pCheck st2 .RPAREN then (.ok [], st2)
          else
            match pConsume st2 .IDENTIFIER "Se esperaba nombre de parámetro" with
            | (.error e, st3) => (.error e, st3)
            | (.ok p, st3) =>
              match pParamsLoop fuel st3 [p] with
              | r => r
        match firstParam with
        | (.error e, st4) => (.error e, st4)
        | (.ok params, st4) =>
          match pConsume st4 .RPAREN "Se esperaba paréntesis después de parámetros" with
          | (.error e, st5) => (.error e, st5)
          | (.ok _, st5) =>
            match pConsume st5 .LBRACE "Se esperaba llave antes del cuerpo de función" with
            | (.error e, st6) => (.error e, st6)
            | (.ok _, st6) =>
              match pBlockStatement fuel st6 with
              | (.error e, st7) => (.error e, st7)
              | (.ok body, st7) =>
                (.ok (.funcDecl nameTok.value (params.map Token.value) body), st7)

/-- The `while self.match(COMMA)` parameter loop of function_declaration. -/
def pParamsLoop : Nat → PState → List Token → Except ParseErr (List Token) × PState
  | 0, st, _ => (.error .fuelExhausted, st)
  | fuel + 1, st, acc =>
    match pMatch st [.COMMA] with
    | (true, st1) =>
      match pConsume st1 .IDENTIFIER "Se esperaba nombre de parámetro" with
      | (.error e, st2) => (.error e, st2)
      | (.ok p, st2) => pParamsLoop fuel st2 (acc ++ [p])
    | (false, st1) => (.ok acc, st1)

/-- Parser.statement. -/
def pStatement : Nat → PState → Except ParseErr Stmt × PState
  | 0, st => (.error .fuelExhausted, st)
  | fuel + 1, st =>
    match pMatch st [.IF] with
    | (true, st1) => pIfStatement fuel st1
    | (false, st1) =>
      match pMatch st1 [.WHILE] with
      | (true, st2) => pWhileStatement fuel st2
      | (false, st2) =>
        match pMatch st2 [.FOR] with
        | (true, st3) => pForStatement fuel st3
        | (false, st3) =>
          match pMatch st3 [.RETURN] with
          | (true, st4) => pReturnStatement fuel st4
          | (false, st4) =>
            match pMatch st4 [.PRINT] with
            | (true, st5) => pPrintStatement fuel st5
            | (false, st5) =>
              match pMatch st5 [.LBRACE] with
              | (true, st6) => pBlockStatement fuel st6
              | (false, st6) => pExpressionStatement fuel st6

/-- Parser.if_statement. -/
def pIfStatement : Nat → PState → Except ParseErr Stmt × PState
  | 0, st => (.error .fuelExhausted, st)
  | fuel + 1, st =>
    match pConsume st .LPAREN "Se esperaba paréntesis después de if" with
    | (.error e, st1) => (.error e, st1)
    | (.ok _, st1) =>
      match pExpression fuel st1 with
      | (.error e, st2) => (.error e, st2)
      | (.ok c, st2) =>
        match pConsume st2 .RPAREN "Se esperaba paréntesis después de condición" with
        | (.error e, st3) => (.error e, st3)
        | (.ok _, st3) =>
          match pStatement fuel st3 with
          | (.error e, st4) => (.error e, st4)
          | (.ok thenB, st4) =>
            match pMatch st4 [.ELSE] with
            | (true, st5) =>
              match pStatement fuel st5 with
              | (.error e, st6) => (.error e, st6)
              | (.ok elseB, st6) => (.ok (.ifS c thenB (some elseB)), st6)
            | (false, st5) => (.ok (.ifS c thenB none), st5)

/-- Parser.while_statement. -/
def pWhileStatement : Nat → PState → Except ParseErr Stmt × PState
  | 0, st => (.error .fuelExhausted, st)
  | fuel + 1, st =>
    match pConsume st .LPAREN "Se esperaba paréntesis después de while" with
    | (.error e, st1) => (.error e, st1)
    | (.ok _, st1) =>
      match pExpression fuel st1 with
      | (.error e, st2) => (.error e, st2)
      | (.ok c, st2) =>
        match pConsume st2 .RPAREN "Se esperaba paréntesis después de condición" with
        | (.error e, st3) => (.error e, st3)
        | (.ok _, st3) =>
          match pStatement fuel st3 with
          | (.error e, st4) => (.error e, st4)
          | (.ok body, st4) => (.ok (.whileS c body), st4)

/-- Parser.for_statement. -/
def pForStatement : Nat → PState → Except ParseErr Stmt × PState
  | 0, st => (.error .fuelExhausted, st)
  | fuel + 1, st =>
    match pConsume st .LPAREN "Se esperaba paréntesis después de for" with
    | (.error e, st1) => (.error e, st1)
    | (.ok _, st1) =>
      let initRes : Except ParseErr (Option Stmt) × PState :=
        match pMatch st1 [.SEMICOLON] with
        | (true, st2) => (.ok none, st2)
        | (false, st2) =>
          match pMatch st2 [.VAR] with
          | (true, st3) =>
            match pVarDeclaration fuel st3 with
            | (.error e, st4) => (.error e, st4)
            | (.ok s, st4) => (.ok (some s), st4)
          | (false, st3) =>
            match pExpressionStatement fuel st3 with
            | (.error e, st4) => (.error e, st4)
            | (.ok s, st4) => (.ok (some s), st4)
      match initRes with
      | (.error e, st5) => (.error e, st5)
      | (.ok init, st5) =>
        let condRes : Except ParseErr (Option Expr) × PState :=
          if pCheck st5 .SEMICOLON then (.ok none, st5)
          else
            match pExpression fuel st5 with
            | (.error e, st6) => (.error e, st6)
            | (.ok c, st6) => (.ok (some c), st6)
        match condRes with
        | (.error e, st7) => (.error e, st7)
        | (.ok cond, st7) =>
          match pConsume st7 .SEMICOLON "Se esperaba punto y coma después de condición del for" with
          | (.error e, st8) => (.error e, st8)
          | (.ok _, st8) =>
            let updRes : Except ParseErr (Option Expr) × PState :=
              if pCheck st8 .RPAREN then (.ok none, st8)
              else
                match pExpression fuel st8 with
                | (.error e, st9) => (.error e, st9)
                | (.ok u, st9) => (.ok (some u), st9)
            match updRes with
            | (.error e, st10) => (.error e, st10)
            | (.ok upd, st10) =>
              match pConsume st10 .RPAREN "Se esperaba paréntesis después de cláusulas del for" with
              | (.error e, st11) => (.error e, st11)
              | (.ok _, st11) =>
                match pStatement fuel st11 with
                | (.error e, st12) => (.error e, st12)
                | (.ok body, st12) => (.ok (.forS init cond upd body), st12)

/-- Parser.return_statement. -/
def pReturnStatement : Nat → PState → Except ParseErr Stmt × PState
  | 0, st => (.error .fuelExhausted, st)
  | fuel + 1, st =>
    let valRes : Except ParseErr (Option Expr) × PState :=
      if pCheck st .SEMICOLON then (.ok none, st)
      else
        match pExpression fuel st with
        | (.error e, st1) => (.error e, st1)
        | (.ok v, st1) => (.ok (some v), st1)
    match valRes with
    | (.error e, st2) => (.error e, st2)
    | (.ok v, st2) =>
      match pConsume st2 .SEMICOLON "Se esperaba punto y coma después de return" with
      | (.error e, st3) => (.error e, st3)
      | (.ok _, st3) => (.ok (.ret v), st3)

/-- Parser.print_statement. -/
def pPrintStatement : Nat → PState → Except ParseErr Stmt × PState
  | 0, st => (.error .fuelExhausted, st)
  | fuel + 1, st =>
    match pConsume st .LPAREN "Se esperaba paréntesis después de print" with
    | (.error e, st1) => (.error e, st1)
    | (.ok _, st1) =>
      match pExpression fuel st1 with
      | (.error e, st2) => (.error e, st2)
      | (.ok expr, st2) =>
        match pConsume st2 .RPAREN "Se esperaba paréntesis después de expresión" with
        | (.error e, st3) => (.error e, st3)
        | (.ok _, st3) =>
          match pConsume st3 .SEMICOLON "Se esperaba punto y coma después de print" with
          | (.error e, st4) => (.error e, st4)
          | (.ok _, st4) => (.ok (.printS expr), st4)

/-- Parser.block_statement (entered after `{` was consumed). -/
def pBlockStatement : Nat → PState → Except ParseErr Stmt × PState
  | 0, st => (.error .fuelExhausted, st)
  | fuel + 1, st =>
    match pBlockLoop fuel st [] with
    | (.error e, st1) => (.error e, st1)
    | (.ok stmts, st1) =>
      match pConsume st1 .RBRACE "Se esperaba llave después del bloque" with
      | (.error e, st2) => (.error e, st2)
      | (.ok _, st2) => (.ok (.block stmts), st2)

/-- The statement loop of block_statement. -/
def pBlockLoop : Nat → PState → List Stmt → Except ParseErr (List Stmt) × PState
  | 0, st, _ => (.error .fuelExhausted, st)
  | fuel + 1, st, acc =>
    if !pCheck st .RBRACE && !pIsAtEnd st then
      match pDeclaration fuel st with
      | (.error e, st1) => (.error e, st1)
      | (.ok s, st1) => pBlockLoop fuel st1 (acc ++ [s])
    else (.ok acc, st)

/-- Parser.expression_statement. -/
def pExpressionStatement : Nat → PState → Except ParseErr Stmt × PState
  | 0, st => (.error .fuelExhausted, st)
  | fuel + 1, st =>
    match pExpression fuel st with
    | (.error e, st1) => (.error e, st1)
    | (.ok expr, st1) =>
      match pConsume st1 .SEMICOLON "Se esperaba punto y coma después de expresión" with
      | (.error e, st2) => (.error e, st2)
      | (.ok _, st2) => (.ok (.exprS expr), st2)

/-- Parser.expression. -/
def pExpression : Nat → PState → Except ParseErr Expr × PState
  | 0, st => (.error .fuelExhausted, st)
  | fuel + 1, st => pAssignment fuel st

/-- Parser.assignment (right-associative; only a bare identifier is a
legal target, checked after the value was parsed). -/
def pAssignment : Nat → PState → Except ParseErr Expr × PState
  | 0, st => (.error .fuelExhausted, st)
  | fuel + 1, st =>
    match pLogicalOr fuel st with
    | (.error e, st1) => (.error e, st1)
    | (.ok e, st1) =>
      match pMatch st1 [.ASSIGN] with
      | (true, st2) =>
        match pAssignment fuel st2 with
        | (.error er, st3) => (.error er, st3)
        | (.ok v, st3) =>
          match e with
          | .ident n => (.ok (.assign n v), st3)
          | _ => (.error .invalidAssignTarget, st3)
      | (false, st2) => (.ok e, st2)

/-- Parser.logical_or. -/
def pLogicalOr : Nat → PState → Except ParseErr Expr × PState
  | 0, st => (.error .fuelExhausted, st)
  | fuel + 1, st =>
    match pLogicalAnd fuel st with
    | (.error e, st1) => (.error e, st1)
    | (.ok e, st1) => pLogicalOrLoop fuel st1 e

/-- The left-associative operator loop of logical_or. -/
def pLogicalOrLoop : Nat → PState → Expr → Except ParseErr Expr × PState
  | 0, st, _ => (.error .fuelExhausted, st)
  | fuel + 1, st, e =>
    match pMatch st [.OR] with
    | (true, st1) =>
      let op := pPrev st1
      match pLogicalAnd fuel st1 with
      | (.error er, st2) => (.error er, st2)
      | (.ok r, st2) => pLogicalOrLoop fuel st2 (.binary e op r)
    | (false, st1) => (.ok e, st1)

/-- Parser.logical_and. -/
def pLogicalAnd : Nat → PState → Except ParseErr Expr × PState
  | 0, st => (.error .fuelExhausted, st)
  | fuel + 1, st =>
    match pEquality fuel st with
    | (.error e, st1) => (.error e, st1)
    | (.ok e, st1) => pLogicalAndLoop fuel st1 e

/-- The left-associative operator loop of logical_and. -/
def pLogicalAndLoop : Nat → PState → Expr → Except ParseErr Expr × PState
  | 0, st, _ => (.error .fuelExhausted, st)
  | fuel + 1, st, e =>
    match pMatch st [.AND] with
    | (true, st1) =>
      let op := pPrev st1
      match pEquality fuel st1 with
      | (.error er, st2) => (.error er, st2)
      | (.ok r, st2) => pLogicalAndLoop fuel st2 (.binary e op r)
    | (false, st1) => (.ok e, st1)

/-- Parser.equality. -/
def pEquality : Nat → PState → Except ParseErr Expr × PState
  | 0, st => (.error .fuelExhausted, st)
  | fuel + 1, st =>
    match pComparison fuel st with
    | (.error e, st1) => (.error e, st1)
    | (.ok e, st1) => pEqualityLoop fuel st1 e

/-- The left-associative operator loop of equality. -/
def pEqualityLoop : Nat → PState → Expr → Except ParseErr Expr × PState
  | 0, st, _ => (.error .fuelExhausted, st)
  | fuel + 1, st, e =>
    match pMatch st [.EQUAL, .NOT_EQUAL] with
    | (true, st1) =>
      let op := pPrev st1
      match pComparison fuel st1 with
      | (.error er, st2) => (.error er, st2)
      | (.ok r, st2) => pEqualityLoop fuel st2 (.binary e op r)
    | (false, st1) => (.ok e, st1)

/-- Parser.comparison. -/
def pComparison : Nat → PState → Except ParseErr Expr × PState
  | 0, st => (.error .fuelExhausted, st)
  | fuel + 1, st =>
    match pTerm fuel st with
    | (.error e, st1) => (.error e, st1)
    | (.ok e, st1) => pComparisonLoop fuel st1 e

/-- The left-associative operator loop of comparison. -/
def pComparisonLoop : Nat → PState → Expr → Except ParseErr Expr × PState
  | 0, st, _ => (.error .fuelExhausted, st)
  | fuel + 1, st, e =>
    match pMatch st [.GREATER_THAN, .GREATER_EQUAL, .LESS_THAN, .LESS_EQUAL] with
    | (true, st1) =>
      let op := pPrev st1
      match pTerm fuel st1 with
      | (.error er, st2) => (.error er, st2)
      | (.ok r, st2) => pComparisonLoop fuel st2 (.binary e op r)
    | (false, st1) => (.ok e, st1)

/-- Parser.term. -/
def pTerm : Nat → PState → Except ParseErr Expr × PState
  | 0, st => (.error .fuelExhausted, st)
  | fuel + 1, st =>
    match pFactor fuel st with
    | (.error e, st1) => (.error e, st1)
    | (.ok e, st1) => pTermLoop fuel st1 e

/-- The left-associative operator loop of term. -/
def pTermLoop : Nat → PState → Expr → Except ParseErr Expr × PState
  | 0, st, _ => (.error .fuelExhausted, st)
  | fuel + 1, st, e =>
    match pMatch st [.PLUS, .MINUS] with
    | (true, st1) =>
      let op := pPrev st1
      match pFactor fuel st1 with
      | (.error er, st2) => (.error er, st2)
      | (.ok r, st2) => pTermLoop fuel st2 (.binary e op r)
    | (false, st1) => (.ok e, st1)

/-- Parser.factor. -/
def pFactor : Nat → PState → Except ParseErr Expr × PState
  | 0, st => (.error .fuelExhausted, st)
  | fuel + 1, st =>
    match pUnary fuel st with
    | (.error e, st1) => (.error e, st1)
    | (.ok e, st1) => pFactorLoop fuel st1 e

/-- The left-associative operator loop of factor. -/
def pFactorLoop : Nat → PState → Expr → Except ParseErr Expr × PState
  | 0, st, _ => (.error .fuelExhausted, st)
  | fuel + 1, st, e =>
    match pMatch st [.MULTIPLY, .DIVIDE, .MODULO] with
    | (true, st1) =>
      let op := pPrev st1
      match pUnary fuel st1 with
      | (.error er, st2) => (.error er, st2)
      | (.ok r, st2) => pFactorLoop fuel st2 (.binary e op r)
    | (false, st1) => (.ok e, st1)

/-- Parser.unary. -/
def pUnary : Nat → PState → Except ParseErr Expr × PState
  | 0, st => (.error .fuelExhausted, st)
  | fuel + 1, st =>
    match pMatch st [.NOT, .MINUS] with
    | (true, st1) =>
      let op := pPrev st1
      match pUnary fuel st1 with
      | (.error er, st2) => (.error er, st2)
      | (.ok r, st2) => (.ok (.unary op r), st2)
    | (false, st1) => pCall fuel st1

/-- Parser.call. -/
def pCall : Nat → PState → Except ParseErr Expr × PState
  | 0, st => (.error .fuelExhausted, st)
  | fuel + 1, st =>
    match pPrimary fuel st with
    | (.error e, st1) => (.error e, st1)
    | (.ok e, st1) => pCallLoop fuel st1 e

/-- The chained-call loop of Parser.call. -/
def pCallLoop : Nat → PState → Expr → Except ParseErr Expr × PState
  | 0, st, _ => (.error .fuelExhausted, st)
  | fuel + 1, st, e =>
    match pMatch st [.LPAREN] with
    | (true, st1) =>
      match pFinishCall fuel st1 e with
      | (.error er, st2) => (.error er, st2)
      | (.ok e1, st2) => pCallLoop fuel st2 e1
    | (false, st1) => (.ok e, st1)

/-- Parser.finish_call (entered after `(` was consumed). -/
def pFinishCall : Nat → PState → Expr → Except ParseErr Expr × PState
  | 0, st, _ => (.error .fuelExhausted, st)
  | fuel + 1, st, callee =>
    let argsRes : Except ParseErr (List Expr) × PState :=
      if pCheck st .RPAREN then (.ok [], st)
      else
        match pExpression fuel st with
        | (.error e, st1) => (.error e, st1)
        | (.ok a, st1) => pArgsLoop fuel st1 [a]
    match argsRes with
    | (.error e, st2) => (.error e, st2)
    | (.ok args, st2) =>
      match pConsume st2 .RPAREN "Se esperaba paréntesis después de argumentos" with
      | (.error e, st3) => (.error e, st3)
      | (.ok _, st3) => (.ok (.call callee args), st3)

/-- The `while self.match(COMMA)` argument loop of finish_call. -/
def pArgsLoop : Nat → PState → List Expr → Except ParseErr (List Expr) × PState
  | 0, st, _ => (.error .fuelExhausted, st)
  | fuel + 1, st, acc =>
    match pMatch st [.COMMA] with
    | (true, st1) =>
      match pExpression fuel st1 with
      | (.error e, st2) => (.error e, st2)
      | (.ok a, st2) => pArgsLoop fuel st2 (acc ++ [a])
    | (false, st1) => (.ok acc, st1)

/-- Parser.primary. -/
def pPrimary : Nat → PState → Except ParseErr Expr × PState
  | 0, st => (.error .fuelExhausted, st)
  | fuel + 1, st =>
    match pMatch st [.TRUE] with
    | (true, st1) => (.ok (.boolLit true), st1)
    | (false, st1) =>
      match pMatch st1 [.FALSE] with
      | (true, st2) => (.ok (.boolLit false), st2)
      | (false, st2) =>
        match pMatch st2 [.NUMBER] with
        | (true, st3) => (.ok (.num (mkNumVal (pPrev st3).value)), st3)
        | (false, st3) =>
          match pMatch st3 [.STRING_LITERAL] with
          | (true, st4) => (.ok (.strLit (pPrev st4).value), st4)
          | (false, st4) =>
            match pMatch st4 [.IDENTIFIER] with
            | (true, st5) => (.ok (.ident (pPrev st5).value), st5)
            | (false, st5) =>
              match pMatch st5 [.LPAREN] with
              | (true, st6) =>
                match pExpression fuel st6 with
                | (.error e, st7) => (.error e, st7)
                | (.ok e, st7) =>
                  match pConsume st7 .RPAREN "Se esperaba paréntesis después de expresión" with
                  | (.error er, st8) => (.error er, st8)
                  | (.ok _, st8) => (.ok e, st8)
              | (false, st6) =>
                (.error (.unexpectedPrimary (pPeek st6).value (pPeek st6).line), st6)

end

/-- Parser.parse's while loop: collect declarations; on a ParseError,
append it to the error list and synchronize. The first fuel argument
bounds loop iterations; the second is the recursion budget handed to
each declaration parse. -/
def parseLoop : Nat → Nat → PState → List Stmt → List Stmt × PState
  | 0, _, st, acc => (acc, st)
  | fuel + 1, dfuel, st, acc =>
    if pIsAtEnd st then (acc, st)
    else
      match pDeclaration dfuel st with
      | (.ok s, st1) => parseLoop fuel dfuel st1 (acc ++ [s])
      | (.error e, st1) =>
        parseLoop fuel dfuel (pSynchronize { st1 with errors := st1.errors ++ [e] }) acc

/-- Parser construction (newline filtering) plus Parser.parse. Returns
the root Program node and the collected error list. -/
def parseTokens (toks : List Token) : Program × List ParseErr :=
  let st0 : PState := ⟨toks.filter (fun t => t.type ≠ .NEWLINE), 0, []⟩
  match parseLoop (st0.tokens.length + 2) (12 * (st0.tokens.length + 2)) st0 [] with
  | (stmts, stF) => (⟨stmts⟩, stF.errors)

/-! ### Symbol table (symbol_table.py) -/

/-- Symbol kinds (SymbolType enum). -/
inductive SymbolType where
  | VARIABLE | CONSTANT | FUNCTION | PARAMETER
deriving DecidableEq

/-- Data types (DataType enum). -/
inductive DataType where
  | int | float | string | boolean | void | unknown
deriving DecidableEq

/-- The Python values the pipeline stores in symbols (see the module
conventions for floats). -/
inductive PyVal where
  | vint (n : Int)
  | vfloat (raw : String)
  | vstr (s : String)
  | vbool (b : Bool)
deriving DecidableEq

/-- A symbol-table entry (the Symbol dataclass). -/
structure Symbol where
  name : String
  symbolType : SymbolType
  dataType : DataType
  scope : Nat
  line : Nat
  column : Nat
  value : Option PyVal := none
  isInitialized : Bool := false
  parameters : Option (List String) := none
deriving DecidableEq

/-- A lexical scope. The scope tree is stored as an arena indexed by
position in `SymbolTable.scopes`; `parent` and `children` hold arena
indices (mirroring Python object references). `symbols` maps a name to
the index of its Symbol in `SymbolTable.allSymbols`, which doubles as
the heap of Symbol objects (Python aliases one mutable Symbol object
from both the scope dict and the flat list). -/
structure Scope where
  level : Nat
  parent : Option Nat
  symbols : List (String × Nat)
  children : List Nat
deriving DecidableEq

def defaultScope : Scope := ⟨0, none, [], []⟩

def defaultSymbol : Symbol := ⟨"", .VARIABLE, .unknown, 0, 0, 0, none, false, none⟩

/-- SymbolTable.__init__: one global scope (arena index 0, level 0),
which is also the current scope. -/
structure SymbolTable where
  scopes : List Scope
  currentScope : Nat
  scopeCounter : Nat
  allSymbols : List Symbol
deriving DecidableEq

def mkSymbolTable : SymbolTable := ⟨[⟨0, none, [], []⟩], 0, 0, []⟩

/-- Semantic errors (SymbolTableError exceptions and the error strings
the builder appends), as tagged values. -/
inductive SemErr where
  | alreadyDeclared (name : String)
  | cannotExitGlobal
  | updVarNotDeclared (name : String)
  | cannotModifyConst (name : String)
  | asgVarNotDeclared (name : String)
  | identNotDeclared (name : String)
  | funcNotDeclared (name : String)
  | notAFunction (name : String)
deriving DecidableEq

def scopeAt (st : SymbolTable) (i : Nat) : Scope := st.scopes.getD i defaultScope

def symAt (st : SymbolTable) (i : Nat) : Symbol := st.allSymbols.getD i defaultSymbol

/-- Scope.lookup_local: the scope dict lookup, returning the heap index. -/
def scopeLookupLocal (sc : Scope) (name : String) : Option Nat :=
  (sc.symbols.find? (fun p => p.1 == name)).map (fun p => p.2)

/-- Scope.lookup: walk from a scope through its parents. The budget
`scopes.length` covers any parent chain of a reachable table (indices
strictly decrease toward the root). -/
def lookupChain (st : SymbolTable) (name : String) : Nat → Nat → Option Nat
  | 0, _ => none
  | fuel + 1, i =>
    let sc := scopeAt st i
    match scopeLookupLocal sc name with
    | some idx => some idx
    | none =>
      match sc.parent with
      | some p => lookupChain st name fuel p
      | none => none

/-- SymbolTable.lookup: resolve from the current scope. -/
def stLookup (st : SymbolTable) (name : String) : Option Nat :=
  lookupChain st name st.scopes.length st.currentScope

/-- SymbolTable.enter_scope: create a child of the current scope and make
it current. -/
def enterScope (st : SymbolTable) : SymbolTable :=
  let cnt := st.scopeCounter + 1
  let newIdx := st.scopes.length
  let cur := scopeAt st st.currentScope
  { st with
      scopeCounter := cnt,
      scopes := (st.scopes.set st.currentScope
        { cur with children := cur.children ++ [newIdx] }) ++ [⟨cnt, some st.currentScope, [], []⟩],
      currentScope := newIdx }

/-- SymbolTable.exit_scope: move to the parent, or raise on the root. -/
def exitScope (st : SymbolTable) : SymbolTable × Option SemErr :=
  match (scopeAt st st.currentScope).parent with
  | some p => ({ st with currentScope := p }, none)
  | none => (st, some .cannotExitGlobal)

/-- Scope.add_symbol followed by the all_symbols append of the declare
methods: raise if the name is already bound in the current scope
(in which case neither the dict nor all_symbols changes); otherwise
install the symbol in the heap and bind the name to it. -/
def addSymbol (st : SymbolTable) (sym : Symbol) : SymbolTable × Option SemErr :=
  let cur := scopeAt st st.currentScope
  if cur.symbols.any (fun p => p.1 == sym.name) then (st, some (.alreadyDeclared sym.name))
  else
    ({ st with
        scopes := st.scopes.set st.currentScope
          { cur with symbols := cur.symbols ++ [(sym.name, st.allSymbols.length)] },
        allSymbols := st.allSymbols ++ [sym] }, none)

/-- SymbolTable.declare_variable. -/
def declareVariable (st : SymbolTable) (name : String) (dataType : DataType)
    (symbolType : SymbolType) (line column : Nat) (value : Option PyVal) :
    SymbolTable × Option SemErr :=
  addSymbol st
    ⟨name, symbolType, dataType, (scopeAt st st.currentScope).level, line, column,
     value, value.isSome, none⟩

/-- SymbolTable.declare_function. -/
def declareFunction (st : SymbolTable) (name : String) (returnType : DataType)
    (params : List String) (line column : Nat) : SymbolTable × Option SemErr :=
  addSymbol st
    ⟨name, .FUNCTION, returnType, (scopeAt st st.currentScope).level, line, column,
     none, false, some params⟩

/-- SymbolTable.declare_parameter. -/
def declareParameter (st : SymbolTable) (name : String) (dataType : DataType)
    (line column : Nat) : SymbolTable × Option SemErr :=
  addSymbol st
    ⟨name, .PARAMETER, dataType, (scopeAt st st.currentScope).level, line, column,
     none, true, none⟩

/-- SymbolTable.update_symbol_value: resolve the name, refuse constants,
otherwise overwrite value and set the initialized flag. -/
def updateSymbolValue (st : SymbolTable) (name : String) (value : Option PyVal) :
    SymbolTable × Option SemErr :=
  match stLookup st name with
  | none => (st, some (.updVarNotDeclared name))
  | some i =>
    let sym := symAt st i
    if sym.symbolType = .CONSTANT then (st, some (.cannotModifyConst name))
    else
      ({ st with allSymbols := st.allSymbols.set i { sym with value := value, isInitialized := true } },
       none)

/-! ### Symbol-table builder (symbol_table_builder.py) -/

/-- Builder state: the table, the collected error list, and the function
currently being processed. -/
structure BState where
  table : SymbolTable
  errors : List SemErr
  currentFunction : Option String
deriving DecidableEq

/-- infer_data_type (Python checks bool before int, mirrored here by the
constructor match). -/
def inferDataType : PyVal → DataType
  | .vbool _ => .boolean
  | .vint _ => .int
  | .vfloat _ => .float
  | .vstr _ => .string

/-- SymbolTableBuilder._evaluate_expression: literals evaluate to
themselves; an identifier to its symbol value when initialized; anything
else to None. -/
def evalLiteral (st : SymbolTable) : Expr → Option PyVal
  | .num (.intV n) => some (.vint n)
  | .num (.floatV r) => some (.vfloat r)
  | .strLit s => some (.vstr s)
  | .boolLit b => some (.vbool b)
  | .ident n =>
    match stLookup st n with
    | some i => if (symAt st i).isInitialized then (symAt st i).value else none
    | none => none
  | _ => none

/-- The `__class__.__name__ != 'BlockStatement'` check of the builder. -/
def isBlockStmt : Stmt → Bool
  | .block _ => true
  | _ => false

/- Expression visitors. No expression-level operation raises (the one
raising call, update_symbol_value, is caught locally), so these return
just the updated state. -/
mutual

def visitExpr : Expr → BState → BState
  | .binary l _ r, st => visitExpr r (visitExpr l st)
  | .unary _ e, st => visitExpr e st
  | .assign id v, st =>
    let st2 :=
      match stLookup st.table id with
      | none => { st with errors := st.errors ++ [.asgVarNotDeclared id] }
      | some i =>
        let value := evalLiteral st.table v
        if (symAt st.table i).symbolType = .CONSTANT then
          { st with errors := st.errors ++ [.cannotModifyConst id] }
        else
          match updateSymbolValue st.table id value with
          | (tb, none) => { st with table := tb }
          | (tb, some e) => { st with table := tb, errors := st.errors ++ [e] }
    visitExpr v st2
  | .call callee args, st =>
    let st1 :=
      match callee with
      | .ident fname =>
        match stLookup st.table fname with
        | none => { st with errors := st.errors ++ [.funcNotDeclared fname] }
        | some i =>
          if (symAt st.table i).symbolType ≠ .FUNCTION then
            { st with errors := st.errors ++ [.notAFunction fname] }
          else st
      | _ => st
    visitExprList args (visitExpr callee st1)
  | .ident n, st =>
    match stLookup st.table n with
    | none => { st with errors := st.errors ++ [.identNotDeclared n] }
    | some _ => st
  | .num _, st => st
  | .strLit _, st => st
  | .boolLit _, st => st

def visitExprList : List Expr → BState → BState
  | [], st => st
  | e :: es, st => visitExprList es (visitExpr e st)

end

/-- The parameter-declaration loop of visit_function_declaration; a raise
from declare_parameter propagates to the function-level handler. -/
def declareParamsLoop : List String → BState → BState × Option SemErr
  | [], st => (st, none)
  | p :: ps, st =>
    match declareParameter st.table p .unknown 1 1 with
    | (tb, some e) => ({ st with table := tb }, some e)
    | (tb, none) => declareParamsLoop ps { st with table := tb }

/- Statement visitors. The `Option SemErr` component is a pending
SymbolTableError exception propagating to an enclosing handler (the
function-level except or the one in build). The composition of the
enter_scope / visit / exit_scope pattern and the exception threading are
factored into combinators so that each visitor case is a direct
transcription of the Python method body. -/

/-- The tail of visit_block_statement (and of the non-block branches of
if/while/for): on a pending exception, propagate it; otherwise call
exit_scope, and propagate its possible exception. -/
def wrapStep (res : BState × Option SemErr) : BState × Option SemErr :=
  match res with
  | (st3, some e) => (st3, some e)
  | (st3, none) =>
    match exitScope st3.table with
    | (tb, oe) => ({ st3 with table := tb }, oe)

/-- Python exception propagation: run the continuation only when no
exception is pending. -/
def andThen (res : BState × Option SemErr) (k : BState → BState × Option SemErr) :
    BState × Option SemErr :=
  match res with
  | (st1, some e) => (st1, some e)
  | (st1, none) => k st1

/-- The function-level except handler of visit_function_declaration: a
propagated exception becomes an appended error message (current_function
stays set, mirroring the Python control flow); otherwise exit the scope
and reset current_function, the exit itself caught by the same handler. -/
def funcFinish (res : BState × Option SemErr) : BState × Option SemErr :=
  match res with
  | (st4, some e) => ({ st4 with errors := st4.errors ++ [e] }, none)
  | (st4, none) =>
    match exitScope st4.table with
    | (tb5, some e) => ({ st4 with table := tb5, errors := st4.errors ++ [e] }, none)
    | (tb5, none) => (⟨tb5, st4.errors, none⟩, none)

/-- The rest of visit_for_statement after the optional init: visit the
optional condition and update expressions, visit the body (wrapped in an
extra scope when it is not a block), then exit the for scope. `visit` is
the statement visitor applied to the body. -/
def forRest (cond upd : Option Expr) (body : Stmt)
    (visit : BState → BState × Option SemErr) (st2 : BState) :
    BState × Option SemErr :=
  let st3 := match cond with | some c => visitExpr c st2 | none => st2
  let st4 := match upd with | some u => visitExpr u st3 | none => st3
  wrapStep
    (if isBlockStmt body then visit st4
     else wrapStep (visit { st4 with table := enterScope st4.table }))

mutual

def visitStmt : Stmt → BState → BState × Option SemErr
  | .varDecl varType id init, st =>
    let value := match init with | some e => evalLiteral st.table e | none => none
    let dataType := match value with | some v => inferDataType v | none => DataType.unknown
    let symbolType : SymbolType := if varType == "const" then .CONSTANT else .VARIABLE
    match declareVariable st.table id dataType symbolType 1 1 value with
    | (tb, none) => ({ st with table := tb }, none)
    | (tb, some e) => ({ st with table := tb, errors := st.errors ++ [e] }, none)
  | .funcDecl name params body, st =>
    match declareFunction st.table name .unknown params 1 1 with
    | (tb, some e) => ({ st with table := tb, errors := st.errors ++ [e] }, none)
    | (tb, none) =>
      let st2 : BState := ⟨enterScope tb, st.errors, some name⟩
      match declareParamsLoop params st2 with
      | (st3, some e) => ({ st3 with errors := st3.errors ++ [e] }, none)
      | (st3, none) => funcFinish (visitStmt body st3)
  | .block stmts, st =>
    wrapStep (visitStmtList stmts { st with table := enterScope st.table })
  | .ifS c t none, st =>
    let st1 := visitExpr c st
    if isBlockStmt t then visitStmt t st1
    else wrapStep (visitStmt t { st1 with table := enterScope st1.table })
  | .ifS c t (some els), st =>
    let st1 := visitExpr c st
    andThen
      (if isBlockStmt t then visitStmt t st1
       else wrapStep (visitStmt t { st1 with table := enterScope st1.table }))
      (fun st4 =>
        if isBlockStmt els then visitStmt els st4
        else wrapStep (visitStmt els { st4 with table := enterScope st4.table }))
  | .whileS c body, st =>
    let st1 := visitExpr c st
    if isBlockStmt body then visitStmt body st1
    else wrapStep (visitStmt body { st1 with table := enterScope st1.table })
  | .forS none cond upd body, st =>
    forRest cond upd body (visitStmt body) { st with table := enterScope st.table }
  | .forS (some i0) cond upd body, st =>
    andThen (visitStmt i0 { st with table := enterScope st.table })
      (forRest cond upd body (visitStmt body))
  | .ret v, st =>
    match v with
    | some e => (visitExpr e st, none)
    | none => (st, none)
  | .printS e, st => (visitExpr e st, none)
  | .exprS e, st => (visitExpr e st, none)

def visitStmtList : List Stmt → BState → BState × Option SemErr
  | [], st => (st, none)
  | s :: ss, st => andThen (visitStmt s st) (fun st1 => visitStmtList ss st1)

end

/-- SymbolTableBuilder.build: visit the program; a propagated
SymbolTableError is converted into one appended error message. -/
def runBuilder (prog : Program) : BState :=
  let st0 : BState := ⟨mkSymbolTable, [], none⟩
  match visitStmtList prog.stmts st0 with
  | (st, some e) => { st with errors := st.errors ++ [e] }
  | (st, none) => st

/-! ### Intermediate code (intermediate_code.py) -/

/-- The three-address opcodes (OpCode enum). -/
inductive OpCode where
  | ADD | SUB | MUL | DIV | MOD | NEG
  | AND | OR | NOT
  | LT | GT | LE | GE | EQ | NE
  | ASSIGN
  | GOTO | IF_TRUE | IF_FALSE
  | CALL | RETURN | PARAM
  | PRINT | LABEL
  | FUNC_BEGIN | FUNC_END
deriving DecidableEq

/-- An instruction operand: a string (name, label, quoted string literal,
"true"/"false"), an int, or a Python float carried as its literal text. -/
inductive IRVal where
  | s (v : String)
  | i (n : Int)
  | f (raw : String)
deriving DecidableEq

/-- A three-address instruction (the Instruction dataclass). -/
structure Instr where
  op : OpCode
  arg1 : Option IRVal := none
  arg2 : Option IRVal := none
  result : Option String := none
deriving DecidableEq

/-- IntermediateCode: the append-only instruction list plus the
temporary/label counters (both start at 0 in __init__). -/
structure ICode where
  instructions : List Instr
  tempCounter : Nat
  labelCounter : Nat
deriving DecidableEq

def mkICode : ICode := ⟨[], 0, 0⟩

/-- The name produced for the n-th temporary. -/
def tempName (n : Nat) : String := "t" ++ Nat.repr n

/-- The name produced for the n-th label. -/
def labelName (n : Nat) : String := "L" ++ Nat.repr n

/-- IntermediateCode.new_temp: bump the counter, name the temporary. -/
def newTemp (c : ICode) : String × ICode :=
  (tempName (c.tempCounter + 1), { c with tempCounter := c.tempCounter + 1 })

/-- IntermediateCode.new_label: bump the counter, name the label. -/
def newLabel (c : ICode) : String × ICode :=
  (labelName (c.labelCounter + 1), { c with labelCounter := c.labelCounter + 1 })

/-- IntermediateCode.emit: append one instruction. -/
def emit (c : ICode) (op : OpCode) (arg1 arg2 : Option IRVal) (result : Option String) : ICode :=
  { c with instructions := c.instructions ++ [⟨op, arg1, arg2, result⟩] }

/-! ### Code generator (code_generator.py) -/

/-- Generator state: the IntermediateCode plus the current-function name
and the break/continue label stacks (pushed at the end, popped from the
end, like Python list append/pop). -/
structure GenState where
  code : ICode
  currentFunction : Option String
  breakLabels : List String
  continueLabels : List String
deriving DecidableEq

def mkGenState : GenState := ⟨mkICode, none, [], []⟩

def gEmit (s : GenState) (op : OpCode) (arg1 arg2 : Option IRVal) (result : Option String) :
    GenState :=
  { s with code := emit s.code op arg1 arg2 result }

def gNewTemp (s : GenState) : String × GenState :=
  match newTemp s.code with
  | (n, c) => (n, { s with code := c })

def gNewLabel (s : GenState) : String × GenState :=
  match newLabel s.code with
  | (n, c) => (n, { s with code := c })

/-- The operator dictionary of visit_binary_expression. -/
def opMap : TokenType → Option OpCode
  | .PLUS => some .ADD
  | .MINUS => some .SUB
  | .MULTIPLY => some .MUL
  | .DIVIDE => some .DIV
  | .MODULO => some .MOD
  | .LESS_THAN => some .LT
  | .GREATER_THAN => some .GT
  | .LESS_EQUAL => some .LE
  | .GREATER_EQUAL => some .GE
  | .EQUAL => some .EQ
  | .NOT_EQUAL => some .NE
  | .AND => some .AND
  | .OR => some .OR
  | _ => none

/- Expression code generation: each visit returns the operand holding the
expression value (a name, or the literal itself) plus the updated state. -/
mutual

def genExpr : Expr → GenState → IRVal × GenState
  | .binary l op r, s =>
    match genExpr l s with
    | (lv, s1) =>
      match genExpr r s1 with
      | (rv, s2) =>
        match gNewTemp s2 with
        | (res, s3) =>
          match opMap op.type with
          | some oc => (.s res, gEmit s3 oc (some lv) (some rv) (some res))
          | none => (.s res, s3)
  | .unary op e, s =>
    match genExpr e s with
    | (v, s1) =>
      match gNewTemp s1 with
      | (res, s2) =>
        if op.type = .MINUS then (.s res, gEmit s2 .NEG (some v) none (some res))
        else if op.type = .NOT then (.s res, gEmit s2 .NOT (some v) none (some res))
        else (.s res, s2)
  | .assign id v, s =>
    match genExpr v s with
    | (vv, s1) => (.s id, gEmit s1 .ASSIGN (some vv) none (some id))
  | .call callee args, s =>
    let s1 := genArgs args s
    match gNewTemp s1 with
    | (res, s2) =>
      let fname := match callee with | .ident n => n | _ => "unknown"
      (.s res, gEmit s2 .CALL (some (.s fname)) (some (.i args.length)) (some res))
  | .ident n, s => (.s n, s)
  | .num (.intV n), s => (.i n, s)
  | .num (.floatV r), s => (.f r, s)
  | .strLit v, s => (.s ("\"" ++ v ++ "\""), s)
  | .boolLit b, s => (.s (if b then "true" else "false"), s)

def genArgs : List Expr → GenState → GenState
  | [], s => s
  | a :: rest, s =>
    match genExpr a s with
    | (av, s1) => genArgs rest (gEmit s1 .PARAM (some av) none none)

end

/-- visit_for_statement after the optional init: three fresh labels, the
loop label stacks, the loop head label, the optional condition test, the
body (`visit` is the statement visitor applied to the body), the continue
label, the optional update, the back jump and the end label. -/
def genForRest (cond upd : Option Expr) (visit : GenState → GenState)
    (s1 : GenState) : GenState :=
  match gNewLabel s1 with
  | (startL, s2) =>
    match gNewLabel s2 with
    | (endL, s3) =>
      match gNewLabel s3 with
      | (continueL, s4) =>
        let s5 := { s4 with breakLabels := s4.breakLabels ++ [endL],
                            continueLabels := s4.continueLabels ++ [continueL] }
        let s6 := gEmit s5 .LABEL (some (.s startL)) none none
        let s7 :=
          match cond with
          | some c =>
            match genExpr c s6 with
            | (cv, s7a) => gEmit s7a .IF_FALSE (some cv) (some (.s endL)) none
          | none => s6
        let s8 := visit s7
        let s9 := gEmit s8 .LABEL (some (.s continueL)) none none
        let s10 := match upd with | some u => (genExpr u s9).2 | none => s9
        let s11 := gEmit s10 .GOTO (some (.s startL)) none none
        let s12 := gEmit s11 .LABEL (some (.s endL)) none none
        { s12 with breakLabels := s12.breakLabels.dropLast,
                   continueLabels := s12.continueLabels.dropLast }

/- Statement code generation. -/
mutual

def genStmt : Stmt → GenState → GenState
  | .varDecl _ id init, s =>
    match init with
    | some e =>
      match genExpr e s with
      | (v, s1) => gEmit s1 .ASSIGN (some v) none (some id)
    | none => s
  | .funcDecl name _ body, s =>
    let s1 := { s with currentFunction := some name }
    let s2 := gEmit s1 .FUNC_BEGIN (some (.s name)) none none
    let s3 := genStmt body s2
    let s4 :=
      match s3.code.instructions.getLast? with
      | none => gEmit s3 .RETURN none none none
      | some last => if last.op ≠ .RETURN then gEmit s3 .RETURN none none none else s3
    let s5 := gEmit s4 .FUNC_END (some (.s name)) none none
    { s5 with currentFunction := none }
  | .block stmts, s => genStmts stmts s
  | .ifS c t eb, s =>
    match genExpr c s with
    | (cv, s1) =>
      match gNewLabel s1 with
      | (elseL, s2) =>
        match gNewLabel s2 with
        | (endL, s3) =>
          let s4 := gEmit s3 .IF_FALSE (some cv) (some (.s elseL)) none
          let s5 := genStmt t s4
          let s6 := gEmit s5 .GOTO (some (.s endL)) none none
          let s7 := gEmit s6 .LABEL (some (.s elseL)) none none
          let s8 := match eb with | some els => genStmt els s7 | none => s7
          gEmit s8 .LABEL (some (.s endL)) none none
  | .whileS c body, s =>
    match gNewLabel s with
    | (startL, s1) =>
      match gNewLabel s1 with
      | (endL, s2) =>
        let s3 := { s2 with breakLabels := s2.breakLabels ++ [endL],
                            continueLabels := s2.continueLabels ++ [startL] }
        let s4 := gEmit s3 .LABEL (some (.s startL)) none none
        match genExpr c s4 with
        | (cv, s5) =>
          let s6 := gEmit s5 .IF_FALSE (some cv) (some (.s endL)) none
          let s7 := genStmt body s6
          let s8 := gEmit s7 .GOTO (some (.s startL)) none none
          let s9 := gEmit s8 .LABEL (some (.s endL)) none none
          { s9 with breakLabels := s9.breakLabels.dropLast,
                    continueLabels := s9.continueLabels.dropLast }
  | .forS none cond upd body, s =>
    genForRest cond upd (genStmt body) s
  | .forS (some i0) cond upd body, s =>
    genForRest cond upd (genStmt body) (genStmt i0 s)
  | .ret v, s =>
    match v with
    | some e =>
      match genExpr e s with
      | (vv, s1) => gEmit s1 .RETURN (some vv) none none
    | none => gEmit s .RETURN none none none
  | .printS e, s =>
    match genExpr e s with
    | (v, s1) => gEmit s1 .PRINT (some v) none none
  | .exprS e, s => (genExpr e s).2

def genStmts : List Stmt → GenState → GenState
  | [], s => s
  | st :: rest, s => genStmts rest (genStmt st s)

end

/-- CodeGenerator.generate on a fresh CodeGenerator (whose __init__
creates a fresh IntermediateCode with both counters at 0). -/
def generate (prog : Program) : ICode :=
  (genStmts prog.stmts mkGenState).code

/-! ### Structured emitter (python_translator.py, class PythonTranslator) -/

/-- Python str.isidentifier (ASCII). -/
def pyIsIdentifier (s : String) : Bool :=
  match s.toList with
  | [] => false
  | c :: cs => (c.isAlpha || c = '_') && cs.all (fun d => d.isAlphanum || d = '_')

/-- Python str.startswith with a one-character prefix. -/
def startsWithChar (s : String) (c : Char) : Bool :=
  match s.toList with
  | [] => false
  | d :: _ => d = c

/-- Python str.endswith with a one-character suffix. -/
def endsWithChar (s : String) (c : Char) : Bool :=
  match s.toList.getLast? with
  | none => false
  | some d => d = c

/-- PythonTranslator._format_value. (The generator never produces a raw
bool operand, so the isinstance(value, bool) branch has no counterpart;
int/float fall to `str(value)`.) -/
def formatValue : Option IRVal → String
  | none => "None"
  | some (.i n) => toString n
  | some (.f raw) => raw
  | some (.s v) =>
    if startsWithChar v '"' && endsWithChar v '"' then v
    else if startsWithChar v 't' || pyIsIdentifier v then v
    else if v == "true" then "True"
    else if v == "false" then "False"
    else "\"" ++ v ++ "\""

/-- Python f-string interpolation of an operand used verbatim
(e.g. the function name in `def {name}():`). -/
def rawStr : Option IRVal → String
  | none => "None"
  | some (.s v) => v
  | some (.i n) => toString n
  | some (.f raw) => raw

/-- Python f-string interpolation of an optional result name. -/
def rawStrS : Option String → String
  | none => "None"
  | some v => v

/-- Whether a float literal text denotes 0.0 (for Python truthiness). -/
def pyFloatIsZero (raw : String) : Bool :=
  raw.toList.all (fun c => c = '0' || c = '.')

/-- Python truthiness of an operand (`if instruction.arg1:`). -/
def pyTruthyV : Option IRVal → Bool
  | none => false
  | some (.s v) => v ≠ ""
  | some (.i n) => n ≠ 0
  | some (.f raw) => !pyFloatIsZero raw

/-- Python truthiness of an optional result name (`if instruction.result:`). -/
def pyTruthyS : Option String → Bool
  | none => false
  | some v => v ≠ ""

/-- The argument count recorded on a CALL (`instruction.arg2`); the
generator always stores `len(node.arguments)` as an int. -/
def argsCountZ : Option IRVal → Int
  | some (.i n) => n
  | _ => 0

/-- Translator state: indent level (an int: Python lets it go negative,
where `"    " * level` renders as empty), output lines, in-function flag. -/
structure TrState where
  indentLevel : Int
  outputLines : List String
  inFunction : Bool
deriving DecidableEq

/-- PythonTranslator._indent. -/
def indentStr (lvl : Int) : String :=
  String.join (List.replicate lvl.toNat "    ")

/-- PythonTranslator._add_line. -/
def trAddLine (st : TrState) (line : String) : TrState :=
  if line.toList.any (fun c => !c.isWhitespace) then
    { st with outputLines := st.outputLines ++ [indentStr st.indentLevel ++ line] }
  else { st with outputLines := st.outputLines ++ [""] }

/-- Default used to totalize out-of-range instruction indexing; the
translator only indexes within bounds. -/
def defaultInstr : Instr := ⟨.RETURN, none, none, none⟩

/-- PythonTranslator._find_label_index (Python returns -1 for "absent",
modelled as none). -/
def findLabelIndex (instrs : List Instr) (label : Option IRVal) : Option Nat :=
  instrs.findIdx? (fun inst => inst.op == .LABEL && inst.arg1 == label)

/-- PythonTranslator._find_goto_before_label: the first GOTO at an index
in [startIndex, label index). -/
def findGotoBeforeLabel (instrs : List Instr) (label : Option IRVal) (startIndex : Nat) :
    Option Nat :=
  match findLabelIndex instrs label with
  | none => none
  | some li =>
    (List.range' startIndex (li - startIndex)).find?
      (fun i => (instrs.getD i defaultInstr).op == .GOTO)

/-- The backwards PARAM scan of the CALL branch: examine indices
j-1, j-2, ..., 0, prepending each PARAM's formatted argument, until
`argsCount` arguments were collected. -/
def collectParams (instrs : List Instr) (argsCount : Int) : Nat → List String → List String
  | 0, params => params
  | j + 1, params =>
    if (params.length : Int) < argsCount then
      let inst := instrs.getD j defaultInstr
      if inst.op = .PARAM then collectParams instrs argsCount j (formatValue inst.arg1 :: params)
      else collectParams instrs argsCount j params
    else params

/-- The operator symbol tables of _translate_instruction. -/
def arithSym : OpCode → String
  | .ADD => "+" | .SUB => "-" | .MUL => "*" | .DIV => "/" | .MOD => "%" | _ => "?"

def cmpSym : OpCode → String
  | .LT => "<" | .GT => ">" | .LE => "<=" | .GE => ">=" | .EQ => "==" | .NE => "!=" | _ => "?"

def boolSym : OpCode → String
  | .AND => "and" | .OR => "or" | _ => "?"

/- PythonTranslator._translate_instruction, _translate_if_pattern and
_process_block_until. The fuel argument bounds the nesting of recovered
structures; `translateLines` supplies more than the translator can use. -/
mutual

def trInstr : Nat → List Instr → Nat → TrState → TrState
  | 0, _, _, st => st
  | fuel + 1, instrs, index, st =>
    let inst := instrs.getD index defaultInstr
    if inst.op = .ASSIGN then
      trAddLine st (rawStrS inst.result ++ " = " ++ formatValue inst.arg1)
    else if inst.op = .ADD ∨ inst.op = .SUB ∨ inst.op = .MUL ∨ inst.op = .DIV ∨
        inst.op = .MOD then
      trAddLine st (rawStrS inst.result ++ " = " ++ formatValue inst.arg1 ++ " " ++
        arithSym inst.op ++ " " ++ formatValue inst.arg2)
    else if inst.op = .LT ∨ inst.op = .GT ∨ inst.op = .LE ∨ inst.op = .GE ∨
        inst.op = .EQ ∨ inst.op = .NE then
      trAddLine st (rawStrS inst.result ++ " = " ++ formatValue inst.arg1 ++ " " ++
        cmpSym inst.op ++ " " ++ formatValue inst.arg2)
    else if inst.op = .AND ∨ inst.op = .OR then
      trAddLine st (rawStrS inst.result ++ " = " ++ formatValue inst.arg1 ++ " " ++
        boolSym inst.op ++ " " ++ formatValue inst.arg2)
    else if inst.op = .NOT then
      trAddLine st (rawStrS inst.result ++ " = not " ++ formatValue inst.arg1)
    else if inst.op = .NEG then
      trAddLine st (rawStrS inst.result ++ " = -" ++ formatValue inst.arg1)
    else if inst.op = .LABEL then st
    else if inst.op = .GOTO then st
    else if inst.op = .IF_TRUE ∨ inst.op = .IF_FALSE then
      trIfPattern fuel instrs index st
    else if inst.op = .PRINT then
      trAddLine st ("print(" ++ formatValue inst.arg1 ++ ")")
    else if inst.op = .FUNC_BEGIN then
      let st1 := trAddLine st ("def " ++ rawStr inst.arg1 ++ "():")
      { st1 with indentLevel := st1.indentLevel + 1, inFunction := true }
    else if inst.op = .FUNC_END then
      let st1 := { st with indentLevel := st.indentLevel - 1 }
      let st2 := trAddLine st1 ""
      { st2 with inFunction := false }
    else if inst.op = .RETURN then
      if pyTruthyV inst.arg1 then trAddLine st ("return " ++ formatValue inst.arg1)
      else trAddLine st "return"
    else if inst.op = .CALL then
      let params := collectParams instrs (argsCountZ inst.arg2) index []
      let argsStr := String.intercalate ", " params
      if pyTruthyS inst.result then
        trAddLine st (rawStrS inst.result ++ " = " ++ rawStr inst.arg1 ++ "(" ++ argsStr ++ ")")
      else
        trAddLine st (rawStr inst.arg1 ++ "(" ++ argsStr ++ ")")
    else st
termination_by structural fuel _ _ _ => fuel

def trIfPattern : Nat → List Instr → Nat → TrState → TrState
  | 0, _, _, st => st
  | fuel + 1, instrs, index, st =>
    let inst := instrs.getD index defaultInstr
    if inst.op = .IF_FALSE then
      let condition := inst.arg1
      let elseLabel := inst.arg2
      match findGotoBeforeLabel instrs elseLabel index with
      | some gotoEnd =>
        let endLabel := (instrs.getD gotoEnd defaultInstr).arg1
        let st1 := trAddLine st ("if " ++ formatValue condition ++ ":")
        let st2 := { st1 with indentLevel := st1.indentLevel + 1 }
        let st3 := trBlock fuel instrs (index + 1) gotoEnd st2
        let st4 := { st3 with indentLevel := st3.indentLevel - 1 }
        let elseIdxZ : Int := match findLabelIndex instrs elseLabel with | some n => n | none => -1
        let endIdxZ : Int := match findLabelIndex instrs endLabel with | some n => n | none => -1
        if elseIdxZ < endIdxZ - 1 then
          let st5 := trAddLine st4 "else:"
          let st6 := { st5 with indentLevel := st5.indentLevel + 1 }
          let st7 := trBlock fuel instrs (elseIdxZ + 1).toNat endIdxZ.toNat st6
          { st7 with indentLevel := st7.indentLevel - 1 }
        else st4
      | none => st
    else st
termination_by structural fuel _ _ _ => fuel

def trBlock : Nat → List Instr → Nat → Nat → TrState → TrState
  | 0, _, _, _, st => st
  | fuel + 1, instrs, i, endExcl, st =>
    if i < endExcl then
      let inst := instrs.getD i defaultInstr
      let st1 := if inst.op ≠ .LABEL ∧ inst.op ≠ .GOTO then trInstr fuel instrs i st else st
      trBlock fuel instrs (i + 1) endExcl st1
    else st
termination_by structural fuel _ _ _ _ => fuel

end

/-- The top-level loop of PythonTranslator.translate. -/
def trLoop : Nat → Nat → List Instr → Nat → TrState → TrState
  | 0, _, _, _, st => st
  | fuel + 1, ifuel, instrs, i, st =>
    if i < instrs.length then trLoop fuel ifuel instrs (i + 1) (trInstr ifuel instrs i st)
    else st

/-- A fuel budget exceeding any possible recovery nesting. -/
def trFuel (instrs : List Instr) : Nat :=
  (instrs.length + 2) * (instrs.length + 2) * (instrs.length + 2)

/-- PythonTranslator.translate, as the list of output lines (the header
from _add_header, then one entry per emitted line). -/
def translateLines (ic : ICode) : List String :=
  let st0 : TrState :=
    ⟨0, ["#!/usr/bin/env python3", "# Código generado por el compilador", ""], false⟩
  (trLoop (ic.instructions.length + 1) (trFuel ic.instructions) ic.instructions 0 st0).outputLines

/-- PythonTranslator.translate's return value. -/
def translateText (ic : ICode) : String :=
  String.intercalate "\n" (translateLines ic)

/-! ### The whole pipeline -/

/-- The pipeline outcome after a successful tokenization: the AST, the
parse errors, and - when parsing reported no errors, mirroring the gate
in the driver - the symbol-table builder state, the generated IR and the
emitted structured text. -/
structure PipelineOut where
  program : Program
  parseErrors : List ParseErr
  builder : Option BState
  code : Option ICode
  outputText : Option String

/-- One full pipeline run from fresh component instances: tokenize,
parse, and if no parse errors: build symbols, generate IR, emit. -/
def runPipeline (src : String) : Except LexErr PipelineOut :=
  match tokenize src with
  | .error e => .error e
  | .ok toks =>
    match parseTokens toks with
    | (prog, perrs) =>
      if perrs.isEmpty then
        let b := runBuilder prog
        let ic := generate prog
        .ok ⟨prog, perrs, some b, some ic, some (translateText ic)⟩
      else
        .ok ⟨prog, perrs, none, none, none⟩

/-- Two pipeline runs on the same input, each from fresh instances. -/
def runPipelineTwice (src : String) : Except LexErr PipelineOut × Except LexErr PipelineOut :=
  (runPipeline src, runPipeline src)

/-- The builder state of a full pipeline run, when the run reaches the
semantic phase. -/
def builderState (src : String) : Option BState :=
  match runPipeline src with
  | .ok out => out.builder
  | .error _ => none

/-- The generated instruction stream of a full pipeline run, when the run
reaches the generation phase. -/
def irInstructions (src : String) : List Instr :=
  match runPipeline src with
  | .ok out => (match out.code with | some ic => ic.instructions | none => [])
  | .error _ => []

/-- The emitted output lines of a full pipeline run, when the run reaches
the emission phase. -/
def outputLinesOf (src : String) : List String :=
  match runPipeline src with
  | .ok out => (match out.code with | some ic => translateLines ic | none => [])
  | .error _ => []

/-! ### Decimal rendering of naturals is injective

`tempName`/`labelName` are built from `Nat.repr`; the following shows two
distinct counters can never yield the same name. -/

/-- The digit list of `Nat.repr`, most significant digit first. -/
def natDigs (n : Nat) : List Char :=
  if n < 10 then [Nat.digitChar n]
  else natDigs (n / 10) ++ [Nat.digitChar (n % 10)]
termination_by n
decreasing_by
  exact Nat.div_lt_self (by omega) (by omega)

theorem natDigs_eq (n : Nat) :
    natDigs n =
      if n < 10 then [Nat.digitChar n]
      else natDigs (n / 10) ++ [Nat.digitChar (n % 10)] := by
  rw [natDigs]

theorem natDigs_ne_nil (n : Nat) : natDigs n ≠ [] := by
  rw [natDigs_eq]
  split
  · simp
  · simp

theorem toDigitsCore_eq_natDigs :
    ∀ fuel n ds, n < fuel →
      Nat.toDigitsCore 10 fuel n ds = natDigs n ++ ds := by
  intro fuel
  induction fuel with
  | zero => intro n ds h; omega
  | succ f ih =>
    intro n ds h
    rw [Nat.toDigitsCore]
    by_cases h10 : n / 10 = 0
    · have hn : n < 10 := by omega
      rw [if_pos h10, natDigs_eq, if_pos hn, Nat.mod_eq_of_lt hn]
      rfl
    · have hn : ¬ n < 10 := by
        intro hlt
        exact h10 (Nat.div_eq_of_lt hlt)
      rw [if_neg h10, ih (n / 10) _ (by
        have := Nat.div_lt_self (by omega : 0 < n) (by omega : 1 < 10)
        omega)]
      rw [natDigs_eq n, if_neg hn, List.append_assoc]
      rfl

theorem repr_eq_natDigs (n : Nat) : Nat.repr n = (natDigs n).asString := by
  show (Nat.toDigits 10 n).asString = (natDigs n).asString
  rw [Nat.toDigits, toDigitsCore_eq_natDigs (n + 1) n [] (by omega)]
  simp

theorem digitChar_inj :
    ∀ a, a < 10 → ∀ b, b < 10 → Nat.digitChar a = Nat.digitChar b → a = b := by
  decide

theorem natDigs_inj : ∀ n m, natDigs n = natDigs m → n = m := by
  intro n
  induction n using Nat.strong_induction_on with
  | _ n ih =>
    intro m h
    by_cases hn : n < 10
    · by_cases hm : m < 10
      · rw [natDigs_eq n, if_pos hn, natDigs_eq m, if_pos hm] at h
        exact digitChar_inj n hn m hm (by simpa using h)
      · rw [natDigs_eq n, if_pos hn, natDigs_eq m, if_neg hm] at h
        have hlen := congrArg List.length h
        simp only [List.length_append, List.length_singleton] at hlen
        exact absurd (List.eq_nil_of_length_eq_zero (by omega)) (natDigs_ne_nil (m / 10))
    · by_cases hm : m < 10
      · rw [natDigs_eq n, if_neg hn, natDigs_eq m, if_pos hm] at h
        have hlen := congrArg List.length h
        simp only [List.length_append, List.length_singleton] at hlen
        exact absurd (List.eq_nil_of_length_eq_zero (by omega)) (natDigs_ne_nil (n / 10))
      · rw [natDigs_eq n, if_neg hn, natDigs_eq m, if_neg hm] at h
        have hpair := List.append_inj' h (by simp)
        have hdiv : n / 10 = m / 10 :=
          ih (n / 10) (Nat.div_lt_self (by omega) (by omega)) (m / 10) hpair.1
        have hmod : n % 10 = m % 10 :=
          digitChar_inj (n % 10) (Nat.mod_lt n (by omega)) (m % 10)
            (Nat.mod_lt m (by omega)) (by simpa using hpair.2)
        omega

theorem asString_inj {a b : List Char} (h : a.asString = b.asString) : a = b := by
  simpa [List.asString] using congrArg String.data h

theorem natRepr_inj {n m : Nat} (h : Nat.repr n = Nat.repr m) : n = m := by
  rw [repr_eq_natDigs, repr_eq_natDigs] at h
  exact natDigs_inj n m (asString_inj h)

theorem tempName_inj {n m : Nat} (h : tempName n = tempName m) : n = m := by
  apply natRepr_inj
  apply String.ext
  have := congrArg String.data h
  simpa [tempName, String.data_append] using this

theorem labelName_inj {n m : Nat} (h : labelName n = labelName m) : n = m := by
  apply natRepr_inj
  apply String.ext
  have := congrArg String.data h
  simpa [labelName, String.data_append] using this

theorem tempName_ne_labelName (n m : Nat) : tempName n ≠ labelName m := by
  intro h
  have := congrArg String.data h
  simp [tempName, labelName, String.data_append] at this

/-! ### Lexer line accounting

The lexer's `line` field always equals its initial value plus the number
of newline characters consumed so far; hence when `read_string` hits the
end of input, the reported line is the LAST line of the source, not the
line where the string literal started. -/

/-- Newline count of a character list. -/
def countNl (cs : List Char) : Nat := cs.count '\n'

theorem countNl_cons (c : Char) (cs : List Char) :
    countNl (c :: cs) = countNl cs + (if c = '\n' then 1 else 0) := by
  simp only [countNl, List.count_cons, beq_iff_eq]

theorem countNl_cons_ne {c : Char} (cs : List Char) (h : c ≠ '\n') :
    countNl (c :: cs) = countNl cs := by
  rw [countNl_cons, if_neg h, Nat.add_zero]

theorem skipWhitespaceL_countNl :
    ∀ cs col, countNl (skipWhitespaceL cs col).1 = countNl cs := by
  intro cs
  induction cs with
  | nil => intro col; simp [skipWhitespaceL]
  | cons c cs ih =>
    intro col
    rw [skipWhitespaceL]
    by_cases hws : isPyWs c = true
    · have hc : c ≠ '\n' := by
        intro heq
        subst heq
        exact absurd hws (by decide)
      rw [if_pos hws, ih, countNl_cons_ne cs hc]
    · rw [if_neg hws]

theorem skipCommentL_countNl :
    ∀ cs col, countNl (skipCommentL cs col).1 = countNl cs := by
  intro cs
  induction cs with
  | nil => intro col; simp [skipCommentL]
  | cons c cs ih =>
    intro col
    rw [skipCommentL]
    by_cases hc : c = '\n'
    · rw [if_pos hc]
    · rw [if_neg hc, ih, countNl_cons_ne cs hc]

theorem readNumberL_countNl :
    ∀ cs hasDot acc, countNl (readNumberL cs hasDot acc).1 = countNl cs := by
  intro cs
  induction cs with
  | nil => intro hasDot acc; simp [readNumberL]
  | cons c cs ih =>
    intro hasDot acc
    rw [readNumberL]
    by_cases hd : c.isDigit = true
    · have hc : c ≠ '\n' := by
        intro heq
        subst heq
        exact absurd hd (by decide)
      rw [if_pos hd, ih, countNl_cons_ne cs hc]
    · rw [if_neg hd]
      by_cases hdot : c = '.'
      · rw [if_pos hdot]
        by_cases hh : hasDot
        · rw [if_pos hh]
        · rw [if_neg hh, ih, countNl_cons_ne cs (by simp [hdot])]
      · rw [if_neg hdot]

theorem readIdentifierL_countNl :
    ∀ cs acc, countNl (readIdentifierL cs acc).1 = countNl cs := by
  intro cs
  induction cs with
  | nil => intro acc; simp [readIdentifierL]
  | cons c cs ih =>
    intro acc
    rw [readIdentifierL]
    by_cases hid : isIdentChar c = true
    · have hc : c ≠ '\n' := by
        intro heq
        subst heq
        exact absurd hid (by decide)
      rw [if_pos hid, ih, countNl_cons_ne cs hc]
    · rw [if_neg hid]

set_option maxHeartbeats 1000000 in
theorem matchOperator_consume :
    ∀ c cs r, matchOperator c cs = some r →
      countNl ((c :: cs).drop r.2.2) = countNl (c :: cs) := by
  intro c cs r h
  have htwo : ∀ (x y : Char), x ≠ '\n' → y ≠ '\n' → cs.head? = some y → r.2.2 = 2 →
      countNl ((x :: cs).drop r.2.2) = countNl (x :: cs) := by
    intro x y hx hy hh hn
    rcases cs with _ | ⟨d, t⟩
    · simp at hh
    · simp only [List.head?_cons, Option.some.injEq] at hh
      subst hh
      rw [hn]
      simp only [List.drop_succ_cons, List.drop_zero]
      rw [countNl_cons_ne _ hx, countNl_cons_ne t hy]
  have hone : ∀ (x : Char), x ≠ '\n' → r.2.2 = 1 →
      countNl ((x :: cs).drop r.2.2) = countNl (x :: cs) := by
    intro x hx hn
    rw [hn]
    simp only [List.drop_succ_cons, List.drop_zero]
    exact (countNl_cons_ne cs hx).symm
  rw [matchOperator] at h
  by_cases hc1 : c = '=' ∧ cs.head? = some '='
  · rw [if_pos hc1] at h
    injection h with h
    subst h
    exact htwo c '=' (by rw [hc1.1]; decide) (by decide) hc1.2 rfl
  · rw [if_neg hc1] at h
    by_cases hc2 : c = '!' ∧ cs.head? = some '='
    · rw [if_pos hc2] at h
      injection h with h
      subst h
      exact htwo c '=' (by rw [hc2.1]; decide) (by decide) hc2.2 rfl
    · rw [if_neg hc2] at h
      by_cases hc3 : c = '<' ∧ cs.head? = some '='
      · rw [if_pos hc3] at h
        injection h with h
        subst h
        exact htwo c '=' (by rw [hc3.1]; decide) (by decide) hc3.2 rfl
      · rw [if_neg hc3] at h
        by_cases hc4 : c = '>' ∧ cs.head? = some '='
        · rw [if_pos hc4] at h
          injection h with h
          subst h
          exact htwo c '=' (by rw [hc4.1]; decide) (by decide) hc4.2 rfl
        · rw [if_neg hc4] at h
          by_cases hc5 : c = '&' ∧ cs.head? = some '&'
          · rw [if_pos hc5] at h
            injection h with h
            subst h
            exact htwo c '&' (by rw [hc5.1]; decide) (by decide) hc5.2 rfl
          · rw [if_neg hc5] at h
            by_cases hc6 : c = '|' ∧ cs.head? = some '|'
            · rw [if_pos hc6] at h
              injection h with h
              subst h
              exact htwo c '|' (by rw [hc6.1]; decide) (by decide) hc6.2 rfl
            · rw [if_neg hc6] at h
              by_cases hc7 : c = '+'
              · rw [if_pos hc7] at h
                injection h with h
                subst h
                exact hone c (by rw [hc7]; decide) rfl
              · rw [if_neg hc7] at h
                by_cases hc8 : c = '-'
                · rw [if_pos hc8] at h
                  injection h with h
                  subst h
                  exact hone c (by rw [hc8]; decide) rfl
                · rw [if_neg hc8] at h
                  by_cases hc9 : c = '*'
                  · rw [if_pos hc9] at h
                    injection h with h
                    subst h
                    exact hone c (by rw [hc9]; decide) rfl
                  · rw [if_neg hc9] at h
                    by_cases hc10 : c = '/'
                    · rw [if_pos hc10] at h
                      injection h with h
                      subst h
                      exact hone c (by rw [hc10]; decide) rfl
                    · rw [if_neg hc10] at h
                      by_cases hc11 : c = '%'
                      · rw [if_pos hc11] at h
                        injection h with h
                        subst h
                        exact hone c (by rw [hc11]; decide) rfl
                      · rw [if_neg hc11] at h
                        by_cases hc12 : c = '='
                        · rw [if_pos hc12] at h
                          injection h with h
                          subst h
                          exact hone c (by rw [hc12]; decide) rfl
                        · rw [if_neg hc12] at h
                          by_cases hc13 : c = '<'
                          · rw [if_pos hc13] at h
                            injection h with h
                            subst h
                            exact hone c (by rw [hc13]; decide) rfl
                          · rw [if_neg hc13] at h
                            by_cases hc14 : c = '>'
                            · rw [if_pos hc14] at h
                              injection h with h
                              subst h
                              exact hone c (by rw [hc14]; decide) rfl
                            · rw [if_neg hc14] at h
                              by_cases hc15 : c = '!'
                              · rw [if_pos hc15] at h
                                injection h with h
                                subst h
                                exact hone c (by rw [hc15]; decide) rfl
                              · rw [if_neg hc15] at h
                                by_cases hc16 : c = ';'
                                · rw [if_pos hc16] at h
                                  injection h with h
                                  subst h
                                  exact hone c (by rw [hc16]; decide) rfl
                                · rw [if_neg hc16] at h
                                  by_cases hc17 : c = ','
                                  · rw [if_pos hc17] at h
                                    injection h with h
                                    subst h
                                    exact hone c (by rw [hc17]; decide) rfl
                                  · rw [if_neg hc17] at h
                                    by_cases hc18 : c = '.'
                                    · rw [if_pos hc18] at h
                                      injection h with h
                                      subst h
                                      exact hone c (by rw [hc18]; decide) rfl
                                    · rw [if_neg hc18] at h
                                      by_cases hc19 : c = ':'
                                      · rw [if_pos hc19] at h
                                        injection h with h
                                        subst h
                                        exact hone c (by rw [hc19]; decide) rfl
                                      · rw [if_neg hc19] at h
                                        by_cases hc20 : c = '('
                                        · rw [if_pos hc20] at h
                                          injection h with h
                                          subst h
                                          exact hone c (by rw [hc20]; decide) rfl
                                        · rw [if_neg hc20] at h
                                          by_cases hc21 : c = ')'
                                          · rw [if_pos hc21] at h
                                            injection h with h
                                            subst h
                                            exact hone c (by rw [hc21]; decide) rfl
                                          · rw [if_neg hc21] at h
                                            by_cases hc22 : c = '{'
                                            · rw [if_pos hc22] at h
                                              injection h with h
                                              subst h
                                              exact hone c (by rw [hc22]; decide) rfl
                                            · rw [if_neg hc22] at h
                                              by_cases hc23 : c = '}'
                                              · rw [if_pos hc23] at h
                                                injection h with h
                                                subst h
                                                exact hone c (by rw [hc23]; decide) rfl
                                              · rw [if_neg hc23] at h
                                                by_cases hc24 : c = '['
                                                · rw [if_pos hc24] at h
                                                  injection h with h
                                                  subst h
                                                  exact hone c (by rw [hc24]; decide) rfl
                                                · rw [if_neg hc24] at h
                                                  by_cases hc25 : c = ']'
                                                  · rw [if_pos hc25] at h
                                                    injection h with h
                                                    subst h
                                                    exact hone c (by rw [hc25]; decide) rfl
                                                  · rw [if_neg hc25] at h
                                                    exact Option.noConfusion h

theorem readStringL_lines (q : Char) (hq : q ≠ '\n') :
    ∀ cs line col acc,
      (∀ v rest2 line2 col2,
          readStringL q cs line col acc = .ok (v, rest2, line2, col2) →
          line2 + countNl rest2 = line + countNl cs) ∧
      (∀ l, readStringL q cs line col acc = .error (.unterminatedString l) →
          l = line + countNl cs) := by
  intro cs line col acc
  induction cs, line, col, acc using readStringL.induct q with
  | case1 cs line col acc =>
    have hstep : readStringL q (q :: cs) line col acc = .ok (acc, cs, line, col + 1) := by
      rw [readStringL.eq_def]
      simp
    constructor
    · intro v rest2 line2 col2 hres
      rw [hstep] at hres
      injection hres with hres
      injection hres with h1 hres
      injection hres with h2 hres
      injection hres with h3 h4
      subst h2 h3
      rw [countNl_cons_ne cs hq]
    · intro l hres
      rw [hstep] at hres
      exact Except.noConfusion hres
  | case2 line col acc hbq =>
    have hstep : readStringL q ['\\'] line col acc = .error .strTypeError := by
      rw [readStringL, if_neg hbq, if_pos rfl]
    constructor
    · intro v rest2 line2 col2 hres
      rw [hstep] at hres
      exact Except.noConfusion hres
    · intro l hres
      rw [hstep] at hres
      injection hres with hres
      exact LexErr.noConfusion hres
  | case3 line col acc ds hbq acc1 ih =>
    have hstep : readStringL q ('\\' :: '\n' :: ds) line col acc =
        readStringL q ds (line + 1) 1 acc1 := by
      rw [readStringL, if_neg hbq, if_pos rfl]
      unfold acc1
      simp [show ¬('\n' = q) from fun hh => hq hh.symm]
    have hcount : countNl ('\\' :: '\n' :: ds) = countNl ds + 1 := by
      rw [countNl_cons_ne _ (by decide), countNl_cons, if_pos rfl]
    constructor
    · intro v rest2 line2 col2 hres
      rw [hstep] at hres
      have := ih.1 v rest2 line2 col2 hres
      omega
    · intro l hres
      rw [hstep] at hres
      have := ih.2 l hres
      omega
  | case4 line col acc d ds acc1 hd hbq ih =>
    have hstep : readStringL q ('\\' :: d :: ds) line col acc =
        readStringL q ds line (col + 2) acc1 := by
      rw [readStringL, if_neg hbq, if_pos rfl]
      simp [if_neg hd]
    have hcount : countNl ('\\' :: d :: ds) = countNl ds := by
      rw [countNl_cons_ne _ (by decide), countNl_cons_ne _ hd]
    constructor
    · intro v rest2 line2 col2 hres
      rw [hstep] at hres
      have := ih.1 v rest2 line2 col2 hres
      omega
    · intro l hres
      rw [hstep] at hres
      have := ih.2 l hres
      omega
  | case5 cs line col acc hnq hnb ih =>
    have hstep : readStringL q ('\n' :: cs) line col acc =
        readStringL q cs (line + 1) 1 (acc.push '\n') := by
      rw [readStringL.eq_def]
      simp [show ¬('\n' = q) from fun hh => hnq hh, (by decide : ('\n' : Char) ≠ '\\')]
    have hcount : countNl ('\n' :: cs) = countNl cs + 1 := by
      rw [countNl_cons, if_pos rfl]
    constructor
    · intro v rest2 line2 col2 hres
      rw [hstep] at hres
      have := ih.1 v rest2 line2 col2 hres
      omega
    · intro l hres
      rw [hstep] at hres
      have := ih.2 l hres
      omega
  | case6 c cs line col acc hcq hcb hcn ih =>
    have hstep : readStringL q (c :: cs) line col acc =
        readStringL q cs line (col + 1) (acc.push c) := by
      rw [readStringL.eq_def]
      simp [hcq, hcb, hcn]
    have hcount : countNl (c :: cs) = countNl cs := countNl_cons_ne _ hcn
    constructor
    · intro v rest2 line2 col2 hres
      rw [hstep] at hres
      have := ih.1 v rest2 line2 col2 hres
      omega
    · intro l hres
      rw [hstep] at hres
      have := ih.2 l hres
      omega
  | case7 line x acc =>
    have hstep : readStringL q [] line x acc = .error (.unterminatedString line) := by
      rw [readStringL.eq_def]
    constructor
    · intro v rest2 line2 col2 hres
      rw [hstep] at hres
      exact Except.noConfusion hres
    · intro l hres
      rw [hstep] at hres
      injection hres with hres
      injection hres with hres
      simp [countNl, hres]

/-- If the main tokenize loop aborts with an unterminated-string error,
the line it cites is the loop's entry line plus every newline remaining
in the input: the whole rest of the source has been scanned. -/
theorem tokenizeLoop_unterminated :
    ∀ fuel rest line col acc l,
      tokenizeLoop fuel rest line col acc = .error (.unterminatedString l) →
      l = line + countNl rest := by
  intro fuel
  induction fuel with
  | zero =>
    intro rest line col acc l h
    rw [tokenizeLoop] at h
    injection h with h
    exact LexErr.noConfusion h
  | succ f ih =>
    intro rest line col acc l h
    rcases rest with _ | ⟨c0, cs0⟩
    · simp [tokenizeLoop] at h
    · rw [tokenizeLoop] at h
      on_goal 2 => simp
      rcases hsw : skipWhitespaceL (c0 :: cs0) col with ⟨rest1, col1⟩
      rw [hsw] at h
      have hc1 := skipWhitespaceL_countNl (c0 :: cs0) col
      rw [hsw] at hc1
      rcases rest1 with _ | ⟨c, cs⟩
      · simp at h
      · dsimp only at h
        by_cases hcom : c = '/' ∧ cs.head? = some '/'
        · rw [if_pos hcom] at h
          rcases hsc : skipCommentL (c :: cs) col1 with ⟨rest2, col2⟩
          rw [hsc] at h
          have hc2 := skipCommentL_countNl (c :: cs) col1
          rw [hsc] at hc2
          have hl := ih rest2 line col2 acc l h
          simp only [countNl] at hl hc1 hc2 ⊢
          omega
        · rw [if_neg hcom] at h
          by_cases hnl : c = '\n'
          · rw [if_pos hnl] at h
            have hl := ih _ _ _ _ l h
            have hcnl : countNl (c :: cs) = countNl cs + 1 := by
              rw [hnl, countNl_cons, if_pos rfl]
            simp only [countNl] at hl hc1 hcnl ⊢
            omega
          · rw [if_neg hnl] at h
            by_cases hdig : c.isDigit = true
            · rw [if_pos hdig] at h
              rcases hrn : readNumberL (c :: cs) false "" with ⟨rest2, numStr⟩
              rw [hrn] at h
              have hc2 := readNumberL_countNl (c :: cs) false ""
              rw [hrn] at hc2
              have hl := ih rest2 line (col1 + numStr.length)
                (acc ++ [⟨.NUMBER, numStr, line, col1⟩]) l h
              simp only [countNl] at hl hc1 hc2 ⊢
              omega
            · rw [if_neg hdig] at h
              by_cases hq : c = '"' ∨ c = '\''
              · rw [if_pos hq] at h
                have hqn : c ≠ '\n' := by
                  rcases hq with h1 | h1 <;> simp [h1]
                have hcc : countNl (c :: cs) = countNl cs := countNl_cons_ne _ hqn
                cases hrs : readStringL c cs line (col1 + 1) "" with
                | ok val =>
                  obtain ⟨v, rest2, line2, col2⟩ := val
                  rw [hrs] at h
                  have hsl := (readStringL_lines c hqn cs line (col1 + 1) "").1
                    v rest2 line2 col2 hrs
                  have hl := ih rest2 line2 col2
                    (acc ++ [⟨.STRING_LITERAL, v, line2, col1⟩]) l h
                  simp only [countNl] at hl hc1 hcc hsl ⊢
                  omega
                | error e =>
                  rw [hrs] at h
                  injection h with h
                  have hsl := (readStringL_lines c hqn cs line (col1 + 1) "").2 l
                    (by rw [hrs, h])
                  simp only [countNl] at hsl hc1 hcc ⊢
                  omega
              · rw [if_neg hq] at h
                by_cases hal : c.isAlpha = true ∨ c = '_'
                · rw [if_pos hal] at h
                  rcases hri : readIdentifierL (c :: cs) "" with ⟨rest2, ident⟩
                  rw [hri] at h
                  have hc2 := readIdentifierL_countNl (c :: cs) ""
                  rw [hri] at hc2
                  have hl := ih rest2 line (col1 + ident.length)
                    (acc ++ [⟨identTokenType ident, ident, line, col1⟩]) l h
                  simp only [countNl] at hl hc1 hc2 ⊢
                  omega
                · rw [if_neg hal] at h
                  cases hmo : matchOperator c cs with
                  | some r =>
                    obtain ⟨tt, lexeme, n⟩ := r
                    rw [hmo] at h
                    have hc2 := matchOperator_consume c cs (tt, lexeme, n) hmo
                    have hl := ih ((c :: cs).drop n) line (col1 + n)
                      (acc ++ [⟨tt, lexeme, line, col1⟩]) l h
                    simp only [countNl] at hl hc1 hc2 ⊢
                    omega
                  | none =>
                    rw [hmo] at h
                    injection h with h
                    exact LexErr.noConfusion h

/-- An alphabetic character is not a digit, not whitespace, and not any of
the lexer's special dispatch characters. -/
theorem alphaFacts (c : Char) (h : c.isAlpha = true) :
    c.isDigit = false ∧ isPyWs c = false ∧ c ≠ '/' ∧ c ≠ '\n' ∧ c ≠ '"' ∧ c ≠ '\'' := by
  revert h
  unfold Char.isAlpha Char.isUpper Char.isLower Char.isDigit isPyWs
  obtain ⟨⟨v, hv⟩, hvalid⟩ := c
  simp [UInt32.le_def, Fin.le_def, Char.ext_iff, UInt32.ext_iff, Fin.ext_iff,
    UInt32.size, Nat.mod_eq_of_lt, UInt32.toNat, BitVec.toNat]
  omega

/-! ### Claim theorems for the lexer -/

/-- Claim C5 (corrected). As the claim states, an unterminated string is
the only fatal outcome of its scan and no token list reaches the caller
(the Except error carries no tokens), and on the claim's own input
`var s = "abc` the error cites line 1, the line where the string starts.
But in general the cited line is the line on which the SCAN of the
unterminated string ends - the last line of the input, namely 1 plus the
number of newlines in the whole source - which is the starting line only
when no newline follows the opening quote. -/
theorem claim_C5 :
    tokenize "var s = \"abc" = .error (.unterminatedString 1) ∧
    (∀ src l, tokenize src = .error (.unterminatedString l) →
      l = 1 + countNl src.toList) := by
  constructor
  · rfl
  · intro src l h
    exact tokenizeLoop_unterminated _ _ _ _ _ _ h

theorem claim_C5_witness :
    (2 : Nat) = 1 + countNl ("var s = \"abc\ndef".toList) :=
  claim_C5.2 "var s = \"abc\ndef" 2 rfl

/-- Claim C5, counterexample to the original wording: in
`var s = "abc⏎def` the unterminated string starts on line 1 (its opening
quote is character 8, and no newline precedes it), yet the fatal error
cites line 2. -/
theorem claim_C5_counterexample :
    tokenize "var s = \"abc\ndef" = .error (.unterminatedString 2) ∧
    countNl ("var s = \"abc\ndef".toList.take 12) = 0 ∧
    "var s = \"abc\ndef".toList.getD 8 ' ' = '"' ∧
    (2 : Nat) ≠ 1 := by
  exact ⟨rfl, by decide, by decide, by decide⟩

/-- Claim C8 (corrected, part 1): distinct temporary counters give
distinct `t<N>` names, distinct label counters give distinct `L<N>`
names, a temporary never equals a label, and each new_temp/new_label
call returns the name of the strictly incremented counter - so all names
produced in one run are pairwise distinct. (Part 2 of the original claim
is refuted separately: source identifiers CAN collide with these names.) -/
theorem claim_C8 :
    (∀ i j : Nat, i ≠ j → tempName i ≠ tempName j) ∧
    (∀ i j : Nat, i ≠ j → labelName i ≠ labelName j) ∧
    (∀ i j : Nat, tempName i ≠ labelName j) ∧
    (∀ s : GenState, gNewTemp s =
      (tempName (s.code.tempCounter + 1),
        { s with code := { s.code with tempCounter := s.code.tempCounter + 1 } })) ∧
    (∀ s : GenState, gNewLabel s =
      (labelName (s.code.labelCounter + 1),
        { s with code := { s.code with labelCounter := s.code.labelCounter + 1 } })) := by
  refine ⟨?_, ?_, ?_, ?_, ?_⟩
  · intro i j hij h
    exact hij (tempName_inj h)
  · intro i j hij h
    exact hij (labelName_inj h)
  · intro i j
    exact tempName_ne_labelName i j
  · intro s
    rfl
  · intro s
    rfl

theorem claim_C8_witness :
    tempName 1 ≠ tempName 2 ∧ labelName 3 ≠ labelName 4 ∧ tempName 5 ≠ labelName 5 ∧
    gNewTemp mkGenState =
      (tempName 1, { mkGenState with code := { mkICode with tempCounter := 1 } }) :=
  ⟨claim_C8.1 1 2 (by decide), claim_C8.2.1 3 4 (by decide), claim_C8.2.2.1 5 5,
   claim_C8.2.2.2.1 mkGenState⟩

/-- Claim C8, counterexample to the original part 2: the lexical grammar
does NOT prevent source identifiers from beginning with `t<digit>`:
`var t1 = 1 + 2;` lexes `t1` as an IDENTIFIER, and the generator's first
temporary (the ADD result) is the name `t1` - equal to that source
identifier. -/
theorem claim_C8_counterexample :
    tokenize "var t1 = 1 + 2;" =
      .ok [⟨.VAR, "var", 1, 1⟩, ⟨.IDENTIFIER, "t1", 1, 5⟩, ⟨.ASSIGN, "=", 1, 8⟩,
        ⟨.NUMBER, "1", 1, 10⟩, ⟨.PLUS, "+", 1, 12⟩, ⟨.NUMBER, "2", 1, 14⟩,
        ⟨.SEMICOLON, ";", 1, 15⟩, ⟨.EOF, "EOF", 1, 16⟩] ∧
    (generate (parseTokens
        [⟨.VAR, "var", 1, 1⟩, ⟨.IDENTIFIER, "t1", 1, 5⟩, ⟨.ASSIGN, "=", 1, 8⟩,
         ⟨.NUMBER, "1", 1, 10⟩, ⟨.PLUS, "+", 1, 12⟩, ⟨.NUMBER, "2", 1, 14⟩,
         ⟨.SEMICOLON, ";", 1, 15⟩, ⟨.EOF, "EOF", 1, 16⟩]).1).instructions =
      [⟨.ADD, some (.i 1), some (.i 2), some (tempName 1)⟩,
       ⟨.ASSIGN, some (.s (tempName 1)), none, some "t1"⟩] ∧
    tempName 1 = "t1" := by
  exact ⟨rfl, rfl, rfl⟩

/-- Claim C10 (confirmed): the scanned identifier is classified by
case-insensitive keyword lookup (the lowercased lexeme against the
keyword table, defaulting to IDENTIFIER), the emitted token keeps the
original casing, and concretely `IF`, `Var`, `TRUE` become keyword
tokens while `xyz` stays an IDENTIFIER. -/
theorem claim_C10 :
    (∀ ident kw, keywordLookup (pyLower ident) = some kw → identTokenType ident = kw) ∧
    (∀ ident, keywordLookup (pyLower ident) = none → identTokenType ident = .IDENTIFIER) ∧
    (∀ fuel cs line col acc c rest1 ident,
        c.isAlpha = true →
        readIdentifierL (c :: cs) "" = (rest1, ident) →
        tokenizeLoop (fuel + 1) (c :: cs) line col acc =
          tokenizeLoop fuel rest1 line (col + ident.length)
            (acc ++ [⟨identTokenType ident, ident, line, col⟩])) ∧
    tokenize "IF Var TRUE xyz" =
      .ok [⟨.IF, "IF", 1, 1⟩, ⟨.VAR, "Var", 1, 4⟩, ⟨.TRUE, "TRUE", 1, 8⟩,
           ⟨.IDENTIFIER, "xyz", 1, 13⟩, ⟨.EOF, "EOF", 1, 16⟩] := by
  refine ⟨?_, ?_, ?_, rfl⟩
  · intro ident kw h
    rw [identTokenType, h]
    rfl
  · intro ident h
    rw [identTokenType, h]
    rfl
  · intro fuel cs line col acc c rest1 ident hAl hri
    obtain ⟨hdig, hws, hslash, hnl, hdq, hsq⟩ := alphaFacts c hAl
    rw [tokenizeLoop]
    on_goal 2 => simp
    have hsw : skipWhitespaceL (c :: cs) col = (c :: cs, col) := by
      rw [skipWhitespaceL, if_neg (by simp [hws])]
    rw [hsw]
    dsimp only
    rw [if_neg (fun hcom => hslash hcom.1), if_neg hnl,
      if_neg (by simp [hdig]), if_neg (by rintro (h1 | h1) <;> [exact hdq h1; exact hsq h1]),
      if_pos (Or.inl hAl), hri]

theorem claim_C10_witness :
    identTokenType "Var" = .VAR ∧ identTokenType "xyz" = .IDENTIFIER ∧
    tokenizeLoop 4 ['x', 'y', 'z'] 1 1 [] =
      tokenizeLoop 3 [] 1 (1 + ("xyz" : String).length)
        ([] ++ [⟨identTokenType "xyz", "xyz", 1, 1⟩]) :=
  ⟨claim_C10.1 "Var" .VAR rfl, claim_C10.2.1 "xyz" rfl,
   claim_C10.2.2.1 3 ['y', 'z'] 1 1 [] 'x' [] "xyz" rfl rfl⟩

/-! ### Scope-tree invariant (claim C3) -/

/-- The scope-tree shape invariant: the arena is nonempty, the current
scope is a valid index, the root (index 0, the global scope) has no
parent, and every other scope has exactly one parent, which is an
earlier arena index. -/
def ScopeParentsOk (st : SymbolTable) : Prop :=
  0 < st.scopes.length ∧
  st.currentScope < st.scopes.length ∧
  (st.scopes.getD 0 defaultScope).parent = none ∧
  ∀ i, i < st.scopes.length → 0 < i →
    ∃ p, (st.scopes.getD i defaultScope).parent = some p ∧ p < i

theorem getD_set_parent {x : Scope} (l : List Scope) (j : Nat)
    (hx : x.parent = (l.getD j defaultScope).parent) (i : Nat) :
    ((l.set j x).getD i defaultScope).parent = (l.getD i defaultScope).parent := by
  by_cases hij : i = j
  · subst hij
    by_cases hi : i < l.length
    · rw [List.getD_eq_getElem?_getD, List.getElem?_set_self hi]
      simp only [Option.getD_some]
      exact hx
    · rw [List.getD_eq_getElem?_getD, List.getElem?_eq_none (by simp only [List.length_set]; omega),
        List.getD_eq_getElem?_getD, List.getElem?_eq_none (by omega)]
  · rw [List.getD_eq_getElem?_getD, List.getElem?_set_ne (by omega),
      ← List.getD_eq_getElem?_getD]

theorem getD_setChildren_parent (l : List Scope) (j : Nat) (ch : List Nat) (i : Nat) :
    ((l.set j { l.getD j defaultScope with children := ch }).getD i defaultScope).parent =
      (l.getD i defaultScope).parent := by
  refine getD_set_parent l j ?_ i
  rfl

theorem getD_setSymbols_parent (l : List Scope) (j : Nat) (sy : List (String × Nat)) (i : Nat) :
    ((l.set j { l.getD j defaultScope with symbols := sy }).getD i defaultScope).parent =
      (l.getD i defaultScope).parent := by
  refine getD_set_parent l j ?_ i
  rfl

theorem scopeParentsOk_enterScope {st : SymbolTable} (h : ScopeParentsOk st) :
    ScopeParentsOk (enterScope st) := by
  obtain ⟨hlen, hcur, hroot, hrest⟩ := h
  unfold enterScope
  dsimp only
  simp only [scopeAt]
  refine ⟨?_, ?_, ?_, ?_⟩
  · simp
  · simp
  · rw [List.getD_eq_getElem?_getD,
      List.getElem?_append_left (by simp only [List.length_set]; omega),
      ← List.getD_eq_getElem?_getD, getD_setChildren_parent]
    exact hroot
  · intro i hi hpos
    simp only [List.length_append, List.length_set, List.length_singleton] at hi
    by_cases hend : i = st.scopes.length
    · subst hend
      refine ⟨st.currentScope, ?_, hcur⟩
      rw [List.getD_eq_getElem?_getD,
        List.getElem?_append_right (by simp only [List.length_set]; omega)]
      simp
    · have hilt : i < st.scopes.length := by omega
      obtain ⟨p, hp, hpi⟩ := hrest i hilt hpos
      refine ⟨p, ?_, hpi⟩
      rw [List.getD_eq_getElem?_getD,
        List.getElem?_append_left (by simp only [List.length_set]; omega),
        ← List.getD_eq_getElem?_getD, getD_setChildren_parent]
      exact hp

theorem scopeParentsOk_exitScope {st : SymbolTable} (h : ScopeParentsOk st) :
    ScopeParentsOk (exitScope st).1 := by
  obtain ⟨hlen, hcur, hroot, hrest⟩ := h
  unfold exitScope scopeAt
  rcases hpar : (st.scopes.getD st.currentScope defaultScope).parent with _ | p
  · exact ⟨hlen, hcur, hroot, hrest⟩
  · simp only []
    refine ⟨hlen, ?_, hroot, hrest⟩
    dsimp only
    by_cases hc0 : st.currentScope = 0
    · rw [hc0, hroot] at hpar
      exact Option.noConfusion hpar
    · obtain ⟨p2, hp2, hp2lt⟩ := hrest st.currentScope hcur (by omega)
      rw [hpar] at hp2
      injection hp2 with hp2
      omega

theorem scopeParentsOk_addSymbol {st : SymbolTable} (sym : Symbol)
    (h : ScopeParentsOk st) : ScopeParentsOk (addSymbol st sym).1 := by
  obtain ⟨hlen, hcur, hroot, hrest⟩ := h
  unfold addSymbol
  dsimp only
  simp only [scopeAt]
  split
  · exact ⟨hlen, hcur, hroot, hrest⟩
  · refine ⟨by simpa using hlen, by simpa using hcur, ?_, ?_⟩
    · rw [getD_setSymbols_parent]
      exact hroot
    · intro i hi hpos
      simp only [List.length_set] at hi
      obtain ⟨p, hp, hpi⟩ := hrest i hi hpos
      exact ⟨p, by rw [getD_setSymbols_parent]; exact hp, hpi⟩

theorem scopeParentsOk_updateSymbolValue {st : SymbolTable} (name : String)
    (v : Option PyVal) (h : ScopeParentsOk st) :
    ScopeParentsOk (updateSymbolValue st name v).1 := by
  obtain ⟨hlen, hcur, hroot, hrest⟩ := h
  unfold updateSymbolValue
  rcases stLookup st name with _ | i
  · exact ⟨hlen, hcur, hroot, hrest⟩
  · simp only []
    split
    · exact ⟨hlen, hcur, hroot, hrest⟩
    · exact ⟨hlen, hcur, hroot, hrest⟩


theorem scopeParentsOk_congr {st1 st2 : SymbolTable}
    (hs : st1.scopes = st2.scopes) (hc : st1.currentScope = st2.currentScope)
    (h : ScopeParentsOk st2) : ScopeParentsOk st1 := by
  unfold ScopeParentsOk at h ⊢
  rw [hs, hc]
  exact h

theorem updateSymbolValue_shape (st : SymbolTable) (name : String) (v : Option PyVal) :
    (updateSymbolValue st name v).1.scopes = st.scopes ∧
    (updateSymbolValue st name v).1.currentScope = st.currentScope := by
  unfold updateSymbolValue
  rcases stLookup st name with _ | i
  · exact ⟨rfl, rfl⟩
  · simp only []
    split
    · exact ⟨rfl, rfl⟩
    · exact ⟨rfl, rfl⟩

mutual

/- visit_expression and its argument-list loop never change the scope
list or the current scope: they only append error messages and overwrite
symbol values inside the arena. -/

theorem visitExpr_shape : ∀ (e : Expr) (st : BState),
    (visitExpr e st).table.scopes = st.table.scopes ∧
    (visitExpr e st).table.currentScope = st.table.currentScope
  | .binary l op r, st => by
    have h1 := visitExpr_shape l st
    have h2 := visitExpr_shape r (visitExpr l st)
    rw [visitExpr]
    exact ⟨h2.1.trans h1.1, h2.2.trans h1.2⟩
  | .unary op e, st => by
    have h1 := visitExpr_shape e st
    rw [visitExpr]
    exact h1
  | .assign id v, st => by
    rw [visitExpr]
    have hst2 : ∀ st2 : BState,
        st2.table.scopes = st.table.scopes → st2.table.currentScope = st.table.currentScope →
        (visitExpr v st2).table.scopes = st.table.scopes ∧
        (visitExpr v st2).table.currentScope = st.table.currentScope := by
      intro st2 hs hc
      have h1 := visitExpr_shape v st2
      exact ⟨h1.1.trans hs, h1.2.trans hc⟩
    rcases stLookup st.table id with _ | i
    · exact hst2 _ rfl rfl
    · dsimp only
      split
      · exact hst2 _ rfl rfl
      · rcases hupd : updateSymbolValue st.table id (evalLiteral st.table v) with ⟨tb, oe⟩
        have hu := updateSymbolValue_shape st.table id (evalLiteral st.table v)
        rw [hupd] at hu
        rcases oe with _ | e0
        · exact hst2 _ hu.1 hu.2
        · exact hst2 _ hu.1 hu.2
  | .call callee args, st => by
    have hrec : ∀ st1 : BState,
        st1.table = st.table →
        ((visitExprList args (visitExpr callee st1)).table.scopes = st.table.scopes ∧
         (visitExprList args (visitExpr callee st1)).table.currentScope = st.table.currentScope) := by
      intro st1 ht
      have hc := visitExpr_shape callee st1
      have ha := visitExprList_shape args (visitExpr callee st1)
      rw [ht] at hc
      exact ⟨ha.1.trans hc.1, ha.2.trans hc.2⟩
    rcases callee with ⟨l, op, r⟩ | ⟨op, e⟩ | ⟨id, v⟩ | ⟨c, a⟩ | n | nv | s | b
    · rw [visitExpr]
      on_goal 2 => simp
      exact hrec _ rfl
    · rw [visitExpr]
      on_goal 2 => simp
      exact hrec _ rfl
    · rw [visitExpr]
      on_goal 2 => simp
      exact hrec _ rfl
    · rw [visitExpr]
      on_goal 2 => simp
      exact hrec _ rfl
    · rw [visitExpr]
      rcases stLookup st.table n with _ | i
      · exact hrec _ rfl
      · dsimp only
        split
        · exact hrec _ rfl
        · exact hrec _ rfl
    · rw [visitExpr]
      on_goal 2 => simp
      exact hrec _ rfl
    · rw [visitExpr]
      on_goal 2 => simp
      exact hrec _ rfl
    · rw [visitExpr]
      on_goal 2 => simp
      exact hrec _ rfl
  | .ident n, st => by
    rw [visitExpr]
    rcases stLookup st.table n with _ | i
    · exact ⟨rfl, rfl⟩
    · exact ⟨rfl, rfl⟩
  | .num nv, st => by rw [visitExpr]; exact ⟨rfl, rfl⟩
  | .strLit s, st => by rw [visitExpr]; exact ⟨rfl, rfl⟩
  | .boolLit b, st => by rw [visitExpr]; exact ⟨rfl, rfl⟩

theorem visitExprList_shape : ∀ (es : List Expr) (st : BState),
    (visitExprList es st).table.scopes = st.table.scopes ∧
    (visitExprList es st).table.currentScope = st.table.currentScope
  | [], st => by rw [visitExprList]; exact ⟨rfl, rfl⟩
  | e :: es, st => by
    have h1 := visitExpr_shape e st
    have h2 := visitExprList_shape es (visitExpr e st)
    rw [visitExprList]
    exact ⟨h2.1.trans h1.1, h2.2.trans h1.2⟩

end

/-- Expression visiting preserves the scope-tree invariant. -/
theorem scopeParentsOk_visitExpr (e : Expr) (st : BState) (h : ScopeParentsOk st.table) :
    ScopeParentsOk (visitExpr e st).table :=
  scopeParentsOk_congr (visitExpr_shape e st).1 (visitExpr_shape e st).2 h

theorem scopeParentsOk_declareVariable (st : SymbolTable) (name : String)
    (dt : DataType) (sty : SymbolType) (line column : Nat) (v : Option PyVal)
    (h : ScopeParentsOk st) :
    ScopeParentsOk (declareVariable st name dt sty line column v).1 :=
  scopeParentsOk_addSymbol _ h

theorem scopeParentsOk_declareFunction (st : SymbolTable) (name : String)
    (rt : DataType) (params : List String) (line column : Nat)
    (h : ScopeParentsOk st) :
    ScopeParentsOk (declareFunction st name rt params line column).1 :=
  scopeParentsOk_addSymbol _ h

theorem scopeParentsOk_declareParamsLoop : ∀ (ps : List String) (st : BState),
    ScopeParentsOk st.table → ScopeParentsOk ((declareParamsLoop ps st).1.table)
  | [], st, h => by rw [declareParamsLoop]; exact h
  | p :: ps, st, h => by
    rw [declareParamsLoop]
    rcases hdp : declareParameter st.table p .unknown 1 1 with ⟨tb, oe⟩
    have htb : ScopeParentsOk tb := by
      have h2 : ScopeParentsOk (declareParameter st.table p .unknown 1 1).1 :=
        scopeParentsOk_addSymbol _ h
      rw [hdp] at h2
      exact h2
    rcases oe with _ | e
    · exact scopeParentsOk_declareParamsLoop ps { st with table := tb } htb
    · exact htb

theorem scopeParentsOk_wrapStep {res : BState × Option SemErr}
    (h : ScopeParentsOk res.1.table) : ScopeParentsOk ((wrapStep res).1.table) := by
  rcases res with ⟨st3, oe⟩
  rcases oe with _ | e
  · rw [wrapStep]
    rcases hex : exitScope st3.table with ⟨tb, oe2⟩
    have h2 := scopeParentsOk_exitScope h
    rw [hex] at h2
    exact h2
  · rw [wrapStep]
    exact h

theorem scopeParentsOk_andThen {res : BState × Option SemErr}
    {k : BState → BState × Option SemErr}
    (h : ScopeParentsOk res.1.table)
    (hk : ∀ s1 : BState, ScopeParentsOk s1.table → ScopeParentsOk ((k s1).1.table)) :
    ScopeParentsOk ((andThen res k).1.table) := by
  rcases res with ⟨st1, oe⟩
  rcases oe with _ | e
  · rw [andThen]
    exact hk st1 h
  · rw [andThen]
    exact h

theorem scopeParentsOk_funcFinish {res : BState × Option SemErr}
    (h : ScopeParentsOk res.1.table) : ScopeParentsOk ((funcFinish res).1.table) := by
  rcases res with ⟨st4, oe⟩
  rcases oe with _ | e
  · rw [funcFinish]
    rcases hex : exitScope st4.table with ⟨tb5, oe5⟩
    have h2 := scopeParentsOk_exitScope h
    rw [hex] at h2
    rcases oe5 with _ | e5 <;> exact h2
  · rw [funcFinish]
    exact h

theorem scopeParentsOk_forRest (cond upd : Option Expr) (body : Stmt)
    (visit : BState → BState × Option SemErr)
    (hv : ∀ s1 : BState, ScopeParentsOk s1.table → ScopeParentsOk ((visit s1).1.table))
    (st2 : BState) (h : ScopeParentsOk st2.table) :
    ScopeParentsOk ((forRest cond upd body visit st2).1.table) := by
  unfold forRest
  dsimp only
  have h3 : ScopeParentsOk (match cond with
      | some c => visitExpr c st2 | none => st2).table := by
    rcases cond with _ | c0
    · exact h
    · exact scopeParentsOk_visitExpr c0 st2 h
  generalize (match cond with | some c => visitExpr c st2 | none => st2) = st3 at h3 ⊢
  have h4 : ScopeParentsOk (match upd with
      | some u => visitExpr u st3 | none => st3).table := by
    rcases upd with _ | u
    · exact h3
    · exact scopeParentsOk_visitExpr u st3 h3
  generalize (match upd with | some u => visitExpr u st3 | none => st3) = st4 at h4 ⊢
  apply scopeParentsOk_wrapStep
  by_cases hb : isBlockStmt body = true
  · rw [if_pos hb]
    exact hv st4 h4
  · rw [if_neg hb]
    apply scopeParentsOk_wrapStep
    exact hv _ (scopeParentsOk_enterScope h4)

mutual

/- Statement visiting preserves the scope-tree invariant: every scope
entered is a fresh child of the then-current scope and every exit moves
to the recorded parent. -/

theorem scopeParentsOk_visitStmt : ∀ (s : Stmt) (st : BState),
    ScopeParentsOk st.table → ScopeParentsOk ((visitStmt s st).1.table)
  | .varDecl vt id init, st, h => by
    rcases init with _ | e0
    · rw [visitStmt]
      split
      · rename_i tb heq
        have h2 := scopeParentsOk_declareVariable st.table id DataType.unknown
          (if (vt == "const") = true then SymbolType.CONSTANT else SymbolType.VARIABLE) 1 1 none h
        rw [heq] at h2
        exact h2
      · rename_i tb e heq
        have h2 := scopeParentsOk_declareVariable st.table id DataType.unknown
          (if (vt == "const") = true then SymbolType.CONSTANT else SymbolType.VARIABLE) 1 1 none h
        rw [heq] at h2
        exact h2
    · rw [visitStmt]
      split
      · rename_i tb heq
        have h2 := scopeParentsOk_declareVariable st.table id
          (match evalLiteral st.table e0 with
           | some v => inferDataType v
           | none => DataType.unknown)
          (if (vt == "const") = true then SymbolType.CONSTANT else SymbolType.VARIABLE) 1 1
          (evalLiteral st.table e0) h
        rw [heq] at h2
        exact h2
      · rename_i tb e heq
        have h2 := scopeParentsOk_declareVariable st.table id
          (match evalLiteral st.table e0 with
           | some v => inferDataType v
           | none => DataType.unknown)
          (if (vt == "const") = true then SymbolType.CONSTANT else SymbolType.VARIABLE) 1 1
          (evalLiteral st.table e0) h
        rw [heq] at h2
        exact h2
  | .funcDecl name params body, st, h => by
    rw [visitStmt]
    split
    · rename_i tb e heq
      have h2 := scopeParentsOk_declareFunction st.table name DataType.unknown params 1 1 h
      rw [heq] at h2
      exact h2
    · rename_i tb heq
      have htb : ScopeParentsOk tb := by
        have h2 := scopeParentsOk_declareFunction st.table name DataType.unknown params 1 1 h
        rw [heq] at h2
        exact h2
      dsimp only
      split
      · rename_i st3 e3 heq3
        have h3 := scopeParentsOk_declareParamsLoop params
          ⟨enterScope tb, st.errors, some name⟩ (scopeParentsOk_enterScope htb)
        rw [heq3] at h3
        exact h3
      · rename_i st3 heq3
        have h3 := scopeParentsOk_declareParamsLoop params
          ⟨enterScope tb, st.errors, some name⟩ (scopeParentsOk_enterScope htb)
        rw [heq3] at h3
        exact scopeParentsOk_funcFinish (scopeParentsOk_visitStmt body st3 h3)
  | .block stmts, st, h => by
    rw [visitStmt]
    exact scopeParentsOk_wrapStep
      (scopeParentsOk_visitStmtList stmts _ (scopeParentsOk_enterScope h))
  | .ifS c t none, st, h => by
    rw [visitStmt]
    have h1 := scopeParentsOk_visitExpr c st h
    by_cases hb : isBlockStmt t = true
    · rw [if_pos hb]
      exact scopeParentsOk_visitStmt t (visitExpr c st) h1
    · rw [if_neg hb]
      exact scopeParentsOk_wrapStep
        (scopeParentsOk_visitStmt t _ (scopeParentsOk_enterScope h1))
  | .ifS c t (some els), st, h => by
    rw [visitStmt]
    have h1 := scopeParentsOk_visitExpr c st h
    apply scopeParentsOk_andThen
    · by_cases hb : isBlockStmt t = true
      · rw [if_pos hb]
        exact scopeParentsOk_visitStmt t (visitExpr c st) h1
      · rw [if_neg hb]
        exact scopeParentsOk_wrapStep
          (scopeParentsOk_visitStmt t _ (scopeParentsOk_enterScope h1))
    · intro st4 h4
      show ScopeParentsOk ((if isBlockStmt els = true then visitStmt els st4
        else wrapStep (visitStmt els { st4 with table := enterScope st4.table })).1.table)
      by_cases hb : isBlockStmt els = true
      · rw [if_pos hb]
        exact scopeParentsOk_visitStmt els st4 h4
      · rw [if_neg hb]
        exact scopeParentsOk_wrapStep
          (scopeParentsOk_visitStmt els _ (scopeParentsOk_enterScope h4))
  | .whileS c body, st, h => by
    rw [visitStmt]
    have h1 := scopeParentsOk_visitExpr c st h
    by_cases hb : isBlockStmt body = true
    · rw [if_pos hb]
      exact scopeParentsOk_visitStmt body (visitExpr c st) h1
    · rw [if_neg hb]
      exact scopeParentsOk_wrapStep
        (scopeParentsOk_visitStmt body _ (scopeParentsOk_enterScope h1))
  | .forS none cond upd body, st, h => by
    rw [visitStmt]
    exact scopeParentsOk_forRest cond upd body (visitStmt body)
      (fun s1 h1 => scopeParentsOk_visitStmt body s1 h1) _ (scopeParentsOk_enterScope h)
  | .forS (some i0) cond upd body, st, h => by
    rw [visitStmt]
    apply scopeParentsOk_andThen
    · exact scopeParentsOk_visitStmt i0 _ (scopeParentsOk_enterScope h)
    · intro st2 h2
      exact scopeParentsOk_forRest cond upd body (visitStmt body)
        (fun s1 h1 => scopeParentsOk_visitStmt body s1 h1) st2 h2
  | .ret v, st, h => by
    rcases v with _ | e0
    · rw [visitStmt]
      exact h
    · rw [visitStmt]
      exact scopeParentsOk_visitExpr e0 st h
  | .printS e, st, h => by
    rw [visitStmt]
    exact scopeParentsOk_visitExpr e st h
  | .exprS e, st, h => by
    rw [visitStmt]
    exact scopeParentsOk_visitExpr e st h

theorem scopeParentsOk_visitStmtList : ∀ (ss : List Stmt) (st : BState),
    ScopeParentsOk st.table → ScopeParentsOk ((visitStmtList ss st).1.table)
  | [], st, h => by rw [visitStmtList]; exact h
  | s :: ss, st, h => by
    rw [visitStmtList]
    apply scopeParentsOk_andThen
    · exact scopeParentsOk_visitStmt s st h
    · intro st1 h1
      exact scopeParentsOk_visitStmtList ss st1 h1

end

/-- The fresh table (one global scope, no parent) satisfies the invariant. -/
theorem mkSymbolTable_ok : ScopeParentsOk mkSymbolTable := by
  refine ⟨by decide, by decide, rfl, ?_⟩
  intro i hi hpos
  simp only [mkSymbolTable, List.length_singleton] at hi
  omega

/-- Any run of the symbol-table builder ends with a well-formed scope tree. -/
theorem scopeParentsOk_runBuilder (prog : Program) : ScopeParentsOk (runBuilder prog).table := by
  unfold runBuilder
  dsimp only
  rcases hvl : visitStmtList prog.stmts ⟨mkSymbolTable, [], none⟩ with ⟨st, oe⟩
  have h := scopeParentsOk_visitStmtList prog.stmts ⟨mkSymbolTable, [], none⟩ mkSymbolTable_ok
  rw [hvl] at h
  rcases oe with _ | e <;> exact h

/-- C3: for every program processed by the symbol-table builder the scope
tree is well formed — the global scope (arena index 0) has no parent, and
every other scope has exactly one parent, created earlier; and exit_scope
while the current scope has no parent (the global scope) is always
rejected with the cannot-exit-global error, leaving the table unchanged,
so the current scope never moves above the root. -/
theorem claim_C3 :
    (∀ prog : Program, ScopeParentsOk (runBuilder prog).table) ∧
    (∀ st : SymbolTable, (scopeAt st st.currentScope).parent = none →
      exitScope st = (st, some .cannotExitGlobal)) := by
  constructor
  · exact scopeParentsOk_runBuilder
  · intro st hpar
    unfold exitScope
    rw [hpar]

theorem claim_C3_witness :
    ScopeParentsOk (runBuilder ⟨[.varDecl "var" "x" (some (.num (.intV 1)))]⟩).table ∧
    (scopeAt mkSymbolTable mkSymbolTable.currentScope).parent = none ∧
    exitScope mkSymbolTable = (mkSymbolTable, some .cannotExitGlobal) :=
  ⟨claim_C3.1 ⟨[.varDecl "var" "x" (some (.num (.intV 1)))]⟩,
   rfl, claim_C3.2 mkSymbolTable rfl⟩

/-! ### Duplicate declarations and constant assignments (claims C6, C7) -/

/-- Scope.add_symbol on a name already bound in the current scope: the
already-declared error is raised and the table is unchanged. -/
theorem addSymbol_dup (st : SymbolTable) (sym : Symbol)
    (hdup : ((scopeAt st st.currentScope).symbols.any (fun p => p.1 == sym.name)) = true) :
    addSymbol st sym = (st, some (.alreadyDeclared sym.name)) := by
  unfold addSymbol
  dsimp only
  rw [if_pos hdup]

theorem declareVariable_dup (st : SymbolTable) (name : String) (dt : DataType)
    (sty : SymbolType) (line column : Nat) (v : Option PyVal)
    (hdup : ((scopeAt st st.currentScope).symbols.any (fun p => p.1 == name)) = true) :
    declareVariable st name dt sty line column v = (st, some (.alreadyDeclared name)) := by
  unfold declareVariable
  exact addSymbol_dup st _ hdup

/-- C6: declaring a name already bound in the current scope raises exactly
the already-declared error with the table unchanged (the second symbol is
installed neither in the scope mapping nor in the flat all-symbols list);
a var declaration hitting this case records exactly one semantic error and
otherwise leaves the builder state as it was; and for the program
`var x = 1; var x = 2;` the build ends with exactly that one error, the
global scope still maps x to the first symbol (arena index 0), and the
arena holds only the first declaration's symbol, with value 1. -/
theorem claim_C6 :
    (∀ (st : SymbolTable) (sym : Symbol),
       ((scopeAt st st.currentScope).symbols.any (fun p => p.1 == sym.name)) = true →
       addSymbol st sym = (st, some (.alreadyDeclared sym.name))) ∧
    (∀ (vt name : String) (init : Option Expr) (st : BState),
       ((scopeAt st.table st.table.currentScope).symbols.any (fun p => p.1 == name)) = true →
       visitStmt (.varDecl vt name init) st =
         ({ st with errors := st.errors ++ [.alreadyDeclared name] }, none)) ∧
    (∃ b : BState, builderState "var x = 1; var x = 2;" = some b ∧
       b.errors = [.alreadyDeclared "x"] ∧
       (scopeAt b.table 0).symbols = [("x", 0)] ∧
       b.table.allSymbols = [⟨"x", .VARIABLE, .int, 0, 1, 1, some (.vint 1), true, none⟩]) := by
  refine ⟨addSymbol_dup, ?_, ?_⟩
  · intro vt name init st hdup
    rcases init with _ | e0
    · rw [visitStmt]
      rw [declareVariable_dup st.table name DataType.unknown
        (if (vt == "const") = true then SymbolType.CONSTANT else SymbolType.VARIABLE) 1 1
        none hdup]
    · rw [visitStmt]
      rcases hev : evalLiteral st.table e0 with _ | v0
      · dsimp only
        rw [declareVariable_dup st.table name DataType.unknown
          (if (vt == "const") = true then SymbolType.CONSTANT else SymbolType.VARIABLE) 1 1
          none hdup]
      · dsimp only
        rw [declareVariable_dup st.table name (inferDataType v0)
          (if (vt == "const") = true then SymbolType.CONSTANT else SymbolType.VARIABLE) 1 1
          (some v0) hdup]
  · exact ⟨_, rfl, rfl, rfl, rfl⟩

theorem claim_C6_witness :
    addSymbol ⟨[⟨0, none, [("x", 0)], []⟩], 0, 0,
        [⟨"x", .VARIABLE, .int, 0, 1, 1, some (.vint 1), true, none⟩]⟩
      ⟨"x", .VARIABLE, .int, 0, 1, 1, some (.vint 2), true, none⟩ =
      (⟨[⟨0, none, [("x", 0)], []⟩], 0, 0,
        [⟨"x", .VARIABLE, .int, 0, 1, 1, some (.vint 1), true, none⟩]⟩,
       some (.alreadyDeclared "x")) ∧
    visitStmt (.varDecl "var" "x" (some (.num (.intV 2))))
      ⟨⟨[⟨0, none, [("x", 0)], []⟩], 0, 0,
        [⟨"x", .VARIABLE, .int, 0, 1, 1, some (.vint 1), true, none⟩]⟩, [], none⟩ =
      (⟨⟨[⟨0, none, [("x", 0)], []⟩], 0, 0,
        [⟨"x", .VARIABLE, .int, 0, 1, 1, some (.vint 1), true, none⟩]⟩,
        [.alreadyDeclared "x"], none⟩, none) :=
  ⟨claim_C6.1 _ _ rfl,
   claim_C6.2.1 "var" "x" (some (.num (.intV 2))) _ rfl⟩

/-- C7: an assignment whose target resolves to a CONSTANT symbol appends
exactly one cannot-modify-constant error and hands the table on unchanged
(the symbol keeps its value and initialized flag; only the value
expression is still visited); and for the program
`const PI = 3.14; PI = 3.0;` the build ends with exactly that one error
and the arena still holds PI with its original literal value 3.14. -/
theorem claim_C7 :
    (∀ (id : String) (v : Expr) (st : BState) (i : Nat),
       stLookup st.table id = some i →
       (symAt st.table i).symbolType = .CONSTANT →
       visitExpr (.assign id v) st =
         visitExpr v { st with errors := st.errors ++ [.cannotModifyConst id] }) ∧
    (∃ b : BState, builderState "const PI = 3.14; PI = 3.0;" = some b ∧
       b.errors = [.cannotModifyConst "PI"] ∧
       b.table.allSymbols =
         [⟨"PI", .CONSTANT, .float, 0, 1, 1, some (.vfloat "3.14"), true, none⟩]) := by
  constructor
  · intro id v st i hlk hconst
    rw [visitExpr]
    rw [hlk]
    dsimp only
    rw [if_pos hconst]
  · exact ⟨_, rfl, rfl, rfl⟩

theorem claim_C7_witness :
    visitExpr (.assign "PI" (.num (.floatV "3.0")))
      ⟨⟨[⟨0, none, [("PI", 0)], []⟩], 0, 0,
        [⟨"PI", .CONSTANT, .float, 0, 1, 1, some (.vfloat "3.14"), true, none⟩]⟩, [], none⟩ =
    visitExpr (.num (.floatV "3.0"))
      ⟨⟨[⟨0, none, [("PI", 0)], []⟩], 0, 0,
        [⟨"PI", .CONSTANT, .float, 0, 1, 1, some (.vfloat "3.14"), true, none⟩]⟩,
       [.cannotModifyConst "PI"], none⟩ :=
  claim_C7.1 "PI" (.num (.floatV "3.0")) _ 0 rfl rfl


/-! ### The backwards PARAM scan of the emitter (claim C9) -/

/-- When the `m` instructions below the scan start are all PARAM, the scan
collects exactly their formatted arguments in stream order. -/
theorem collectParams_contig (instrs : List Instr) (k : Int) (j0 : Nat) :
    ∀ (m : Nat) (params : List String), (params.length : Int) + m = k →
    (∀ i, i < m → (instrs.getD (j0 + i) defaultInstr).op = .PARAM) →
    collectParams instrs k (j0 + m) params =
      ((List.range m).map (fun i => formatValue (instrs.getD (j0 + i) defaultInstr).arg1)) ++ params
  | 0, params, hlen, _ => by
    have hstop : ¬((params.length : Int) < k) := by omega
    cases j0 with
    | zero =>
      show collectParams instrs k 0 params = _
      rw [collectParams]
      simp
    | succ j =>
      show collectParams instrs k (j + 1) params = _
      rw [collectParams]
      rw [if_neg hstop]
      simp
  | m + 1, params, hlen, hp => by
    have hlt : (params.length : Int) < k := by omega
    rw [show j0 + (m + 1) = (j0 + m) + 1 from rfl]
    rw [collectParams]
    dsimp only
    rw [if_pos hlt, if_pos (hp m (by omega))]
    have ih := collectParams_contig instrs k j0 m
      (formatValue (instrs.getD (j0 + m) defaultInstr).arg1 :: params)
      (by rw [List.length_cons]; push_cast; omega)
      (fun i hi => hp i (by omega))
    rw [ih]
    rw [List.range_succ, List.map_append]
    simp

/-- C9 (amended): the CALL branch of the emitter reconstructs the argument
list by scanning backwards from the CALL, SKIPPING any non-PARAM
instruction, until the recorded argument count is collected; the collected
PARAMs render in stream order, which is the original left-to-right order
exactly when the count PARAMs sit contiguously right below the CALL; with
intervening non-PARAM instructions the scan reaches past them, so the
nested-call stream of `f(x, g(y));` yields the arguments [y, t1]. -/
theorem claim_C9 :
    (∀ (instrs : List Instr) (k : Int) (j : Nat) (params : List String),
       (params.length : Int) < k →
       (instrs.getD j defaultInstr).op ≠ .PARAM →
       collectParams instrs k (j + 1) params = collectParams instrs k j params) ∧
    (∀ (instrs : List Instr) (k : Int) (j : Nat) (params : List String),
       (params.length : Int) < k →
       (instrs.getD j defaultInstr).op = .PARAM →
       collectParams instrs k (j + 1) params =
         collectParams instrs k j (formatValue (instrs.getD j defaultInstr).arg1 :: params)) ∧
    (∀ (instrs : List Instr) (n : Nat) (j0 : Nat),
       (∀ i, i < n → (instrs.getD (j0 + i) defaultInstr).op = .PARAM) →
       collectParams instrs (n : Int) (j0 + n) [] =
         (List.range n).map (fun i => formatValue (instrs.getD (j0 + i) defaultInstr).arg1)) ∧
    collectParams
      [⟨.PARAM, some (.s "x"), none, none⟩,
       ⟨.PARAM, some (.s "y"), none, none⟩,
       ⟨.CALL, some (.s "g"), some (.i 1), some "t1"⟩,
       ⟨.PARAM, some (.s "t1"), none, none⟩,
       ⟨.CALL, some (.s "f"), some (.i 2), some "t2"⟩] 2 4 [] = ["y", "t1"] := by
  refine ⟨?_, ?_, ?_, rfl⟩
  · intro instrs k j params hlt hop
    rw [collectParams]
    dsimp only
    rw [if_pos hlt, if_neg hop]
  · intro instrs k j params hlt hop
    rw [collectParams]
    dsimp only
    rw [if_pos hlt, if_pos hop]
  · intro instrs n j0 hp
    have h := collectParams_contig instrs (n : Int) j0 n [] (by simp) hp
    simpa using h

theorem claim_C9_witness :
    collectParams
      [⟨.PARAM, some (.s "x"), none, none⟩,
       ⟨.PARAM, some (.s "y"), none, none⟩,
       ⟨.CALL, some (.s "g"), some (.i 1), some "t1"⟩,
       ⟨.PARAM, some (.s "t1"), none, none⟩,
       ⟨.CALL, some (.s "f"), some (.i 2), some "t2"⟩] 2 3 ["t1"] =
    collectParams
      [⟨.PARAM, some (.s "x"), none, none⟩,
       ⟨.PARAM, some (.s "y"), none, none⟩,
       ⟨.CALL, some (.s "g"), some (.i 1), some "t1"⟩,
       ⟨.PARAM, some (.s "t1"), none, none⟩,
       ⟨.CALL, some (.s "f"), some (.i 2), some "t2"⟩] 2 2 ["t1"] ∧
    collectParams
      [⟨.PARAM, some (.s "x"), none, none⟩,
       ⟨.PARAM, some (.s "y"), none, none⟩,
       ⟨.CALL, some (.s "g"), some (.i 1), some "t1"⟩,
       ⟨.PARAM, some (.s "t1"), none, none⟩,
       ⟨.CALL, some (.s "f"), some (.i 2), some "t2"⟩] 2 2 [] = ["x", "y"] :=
  ⟨claim_C9.1
     [⟨.PARAM, some (.s "x"), none, none⟩,
      ⟨.PARAM, some (.s "y"), none, none⟩,
      ⟨.CALL, some (.s "g"), some (.i 1), some "t1"⟩,
      ⟨.PARAM, some (.s "t1"), none, none⟩,
      ⟨.CALL, some (.s "f"), some (.i 2), some "t2"⟩] 2 2 ["t1"] (by decide) (by decide),
   by
     have h := claim_C9.2.2.1
       [⟨.PARAM, some (.s "x"), none, none⟩,
        ⟨.PARAM, some (.s "y"), none, none⟩,
        ⟨.CALL, some (.s "g"), some (.i 1), some "t1"⟩,
        ⟨.PARAM, some (.s "t1"), none, none⟩,
        ⟨.CALL, some (.s "f"), some (.i 2), some "t2"⟩] 2 0 (by decide)
     simpa using h⟩

/-- C9 counterexample to the frozen wording: in the pipeline run of
`f(x, g(y));` the CALL for f (index 4, argument count 2) is NOT preceded
by a contiguous run of two PARAMs - index 2 holds the CALL for g - yet
the emitter still collects two arguments, reaching past that CALL, and
rebuilds `t2 = f(y, t1)` (the first source argument x is dropped and the
inner PARAM y takes its place). -/
theorem claim_C9_counterexample :
    irInstructions "f(x, g(y));" =
      [⟨.PARAM, some (.s "x"), none, none⟩,
       ⟨.PARAM, some (.s "y"), none, none⟩,
       ⟨.CALL, some (.s "g"), some (.i 1), some "t1"⟩,
       ⟨.PARAM, some (.s "t1"), none, none⟩,
       ⟨.CALL, some (.s "f"), some (.i 2), some "t2"⟩] ∧
    ((irInstructions "f(x, g(y));").getD 4 defaultInstr).op = .CALL ∧
    argsCountZ ((irInstructions "f(x, g(y));").getD 4 defaultInstr).arg2 = 2 ∧
    ((irInstructions "f(x, g(y));").getD 2 defaultInstr).op ≠ .PARAM ∧
    collectParams (irInstructions "f(x, g(y));") 2 4 [] = ["y", "t1"] ∧
    outputLinesOf "f(x, g(y));" =
      ["#!/usr/bin/env python3", "# Código generado por el compilador", "",
       "t1 = g(y)", "t2 = f(y, t1)"] :=
  ⟨rfl, rfl, rfl, by decide, rfl, by decide⟩

/-! ### Pipeline determinism (claim C2) and parser recovery (claim C4) -/

/-- Every successful tokenization ends with an EOF token: both exits of
the scan loop append it. -/
theorem tokenizeLoop_eof :
    ∀ fuel rest line col acc toks,
      tokenizeLoop fuel rest line col acc = .ok toks →
      ∃ pre l c, toks = pre ++ [⟨.EOF, "EOF", l, c⟩] := by
  intro fuel
  induction fuel with
  | zero =>
    intro rest line col acc toks h
    rw [tokenizeLoop] at h
    exact Except.noConfusion h
  | succ f ih =>
    intro rest line col acc toks h
    rcases rest with _ | ⟨c0, cs0⟩
    · rw [tokenizeLoop] at h
      injection h with h
      exact ⟨acc, line, col, h.symm⟩
    · rw [tokenizeLoop] at h
      on_goal 2 => simp
      rcases hsw : skipWhitespaceL (c0 :: cs0) col with ⟨rest1, col1⟩
      rw [hsw] at h
      rcases rest1 with _ | ⟨c, cs⟩
      · dsimp only at h
        injection h with h
        exact ⟨acc, line, col1, h.symm⟩
      · dsimp only at h
        by_cases hcom : c = '/' ∧ cs.head? = some '/'
        · rw [if_pos hcom] at h
          rcases hsc : skipCommentL (c :: cs) col1 with ⟨rest2, col2⟩
          rw [hsc] at h
          exact ih _ _ _ _ _ h
        · rw [if_neg hcom] at h
          by_cases hnl : c = '\n'
          · rw [if_pos hnl] at h
            exact ih _ _ _ _ _ h
          · rw [if_neg hnl] at h
            by_cases hdig : c.isDigit = true
            · rw [if_pos hdig] at h
              rcases hrn : readNumberL (c :: cs) false "" with ⟨rest2, numStr⟩
              rw [hrn] at h
              exact ih _ _ _ _ _ h
            · rw [if_neg hdig] at h
              by_cases hq : c = '"' ∨ c = '\''
              · rw [if_pos hq] at h
                cases hrs : readStringL c cs line (col1 + 1) "" with
                | ok val =>
                  obtain ⟨v, rest2, line2, col2⟩ := val
                  rw [hrs] at h
                  dsimp only at h
                  exact ih _ _ _ _ _ h
                | error e =>
                  rw [hrs] at h
                  exact Except.noConfusion h
              · rw [if_neg hq] at h
                by_cases hal : c.isAlpha = true ∨ c = '_'
                · rw [if_pos hal] at h
                  rcases hri : readIdentifierL (c :: cs) "" with ⟨rest2, ident⟩
                  rw [hri] at h
                  exact ih _ _ _ _ _ h
                · rw [if_neg hal] at h
                  rcases hmo : matchOperator c cs with _ | ⟨tt, lexeme, n⟩
                  · rw [hmo] at h
                    exact Except.noConfusion h
                  · rw [hmo] at h
                    exact ih _ _ _ _ _ h

/-- C2: the pipeline is a pure function of the source text: the two runs
of runPipelineTwice are identical, so a doubled run yields equal IR and
equal output text; and each run generates from fresh instances - the
initial generator state wraps mkICode, whose instruction list is empty
and whose temporary and label counters are zero. -/
theorem claim_C2 :
    (∀ src : String, (runPipelineTwice src).1 = (runPipelineTwice src).2) ∧
    (∀ (src : String) (o1 o2 : PipelineOut),
       runPipelineTwice src = (.ok o1, .ok o2) →
       o1.code = o2.code ∧ o1.outputText = o2.outputText) ∧
    mkGenState.code = mkICode ∧ mkICode = ⟨[], 0, 0⟩ := by
  refine ⟨fun _ => rfl, ?_, rfl, rfl⟩
  intro src o1 o2 h
  have h1 : (runPipeline src, runPipeline src) = (Except.ok o1, Except.ok o2) := h
  rw [Prod.mk.injEq] at h1
  obtain ⟨ha, hb⟩ := h1
  rw [ha] at hb
  injection hb with hc
  rw [hc]
  exact ⟨rfl, rfl⟩


theorem claim_C2_witness :
    (runPipelineTwice "print(1);").1 = (runPipelineTwice "print(1);").2 ∧
    ∃ o1 o2, runPipelineTwice "print(1);" = (.ok o1, .ok o2) ∧
      o1.code = o2.code ∧ o1.outputText = o2.outputText :=
  ⟨claim_C2.1 "print(1);",
   ⟨_, _, rfl, claim_C2.2.1 "print(1);" _ _ rfl⟩⟩

/-- C4: the parse loop consumes a declaration error by appending it to
the error list and synchronizing - no error propagates out of the loop -
and consumes a parsed statement by appending it to the statement list;
parse always returns the root Program built from those statements;
synchronize advances past the offending token and then discards tokens
until end of input, until a semicolon was just consumed, or until the
next token begins a statement (if, for, while, var, function, return,
print); and every successful tokenization hands the parser an
EOF-terminated token list. -/
theorem claim_C4 :
    (∀ (fuel dfuel : Nat) (st : PState) (acc : List Stmt) (e : ParseErr) (st1 : PState),
       pIsAtEnd st = false →
       pDeclaration dfuel st = (.error e, st1) →
       parseLoop (fuel + 1) dfuel st acc =
         parseLoop fuel dfuel (pSynchronize { st1 with errors := st1.errors ++ [e] }) acc) ∧
    (∀ (fuel dfuel : Nat) (st : PState) (acc : List Stmt) (s : Stmt) (st1 : PState),
       pIsAtEnd st = false →
       pDeclaration dfuel st = (.ok s, st1) →
       parseLoop (fuel + 1) dfuel st acc = parseLoop fuel dfuel st1 (acc ++ [s])) ∧
    (∀ st : PState, pSynchronize st = pSyncLoop (pAdvance st)) ∧
    (∀ st : PState,
       (pIsAtEnd st = true → pSyncLoop st = st) ∧
       (pIsAtEnd st = false → (pPrev st).type = .SEMICOLON → pSyncLoop st = st) ∧
       (pIsAtEnd st = false → (pPrev st).type ≠ .SEMICOLON →
         syncTypes.contains (pPeek st).type = true → pSyncLoop st = st) ∧
       (pIsAtEnd st = false → (pPrev st).type ≠ .SEMICOLON →
         syncTypes.contains (pPeek st).type = false →
         pSyncLoop st = pSyncLoop (pAdvance st))) ∧
    (∀ toks : List Token, (parseTokens toks).1 =
       ⟨(parseLoop ((toks.filter (fun t => t.type ≠ .NEWLINE)).length + 2)
          (12 * ((toks.filter (fun t => t.type ≠ .NEWLINE)).length + 2))
          ⟨toks.filter (fun t => t.type ≠ .NEWLINE), 0, []⟩ []).1⟩) ∧
    (∀ (src : String) (toks : List Token), tokenize src = .ok toks →
       ∃ pre l c, toks = pre ++ [⟨.EOF, "EOF", l, c⟩]) := by
  refine ⟨?_, ?_, fun _ => rfl, ?_, ?_, ?_⟩
  · intro fuel dfuel st acc e st1 hend hdecl
    rw [parseLoop]
    rw [if_neg (by simp [hend])]
    rw [hdecl]
  · intro fuel dfuel st acc s st1 hend hdecl
    rw [parseLoop]
    rw [if_neg (by simp [hend])]
    rw [hdecl]
  · intro st
    refine ⟨?_, ?_, ?_, ?_⟩
    · intro hend
      rw [pSyncLoop]
      rw [dif_pos hend]
    · intro hend hsemi
      rw [pSyncLoop]
      rw [dif_neg (by simp [hend])]
      rw [if_pos hsemi]
    · intro hend hsemi hc
      rw [pSyncLoop]
      rw [dif_neg (by simp [hend])]
      rw [if_neg hsemi, if_pos hc]
    · intro hend hsemi hc
      rw [pSyncLoop]
      rw [dif_neg (by simp [hend])]
      rw [if_neg hsemi, if_neg (by simpa using hc)]
  · intro toks
    rfl
  · intro src toks h
    exact tokenizeLoop_eof _ _ _ _ _ _ h


theorem claim_C4_witness :
    parseLoop 3 40 ⟨[⟨.SEMICOLON, ";", 1, 1⟩, ⟨.EOF, "EOF", 1, 2⟩], 0, []⟩ [] =
      parseLoop 2 40
        (pSynchronize ⟨[⟨.SEMICOLON, ";", 1, 1⟩, ⟨.EOF, "EOF", 1, 2⟩], 0,
          [.unexpectedPrimary ";" 1]⟩) [] ∧
    pSyncLoop ⟨[⟨.EOF, "EOF", 1, 1⟩], 0, []⟩ = ⟨[⟨.EOF, "EOF", 1, 1⟩], 0, []⟩ ∧
    (∃ pre l c, [⟨.VAR, "var", 1, 1⟩, ⟨.EOF, "EOF", 1, 4⟩] =
      pre ++ [(⟨.EOF, "EOF", l, c⟩ : Token)]) :=
  ⟨claim_C4.1 2 40 ⟨[⟨.SEMICOLON, ";", 1, 1⟩, ⟨.EOF, "EOF", 1, 2⟩], 0, []⟩ []
     (.unexpectedPrimary ";" 1) ⟨[⟨.SEMICOLON, ";", 1, 1⟩, ⟨.EOF, "EOF", 1, 2⟩], 0, []⟩
     rfl rfl,
   (claim_C4.2.2.2.1 ⟨[⟨.EOF, "EOF", 1, 1⟩], 0, []⟩).1 rfl,
   claim_C4.2.2.2.2.2 "var" [⟨.VAR, "var", 1, 1⟩, ⟨.EOF, "EOF", 1, 4⟩] rfl⟩


/-! ### The if-statement lowering (claim C1) -/

theorem gEmit_instructions (s : GenState) (op : OpCode) (a b : Option IRVal)
    (r : Option String) :
    (gEmit s op a b r).code.instructions = s.code.instructions ++ [⟨op, a, b, r⟩] := rfl

theorem gNewTemp_instructions (s : GenState) :
    (gNewTemp s).2.code.instructions = s.code.instructions := rfl

theorem gNewLabel_instructions (s : GenState) :
    (gNewLabel s).2.code.instructions = s.code.instructions := rfl

mutual

/- Expression generation only appends instructions. -/
theorem genExpr_append : ∀ (e : Expr) (s : GenState),
    ∃ d, (genExpr e s).2.code.instructions = s.code.instructions ++ d
  | .binary l op r, s => by
    obtain ⟨d1, h1⟩ := genExpr_append l s
    rcases hl : genExpr l s with ⟨lv, s1⟩
    rw [hl] at h1
    obtain ⟨d2, h2⟩ := genExpr_append r s1
    rcases hr : genExpr r s1 with ⟨rv, s2⟩
    rw [hr] at h2
    rw [genExpr, hl]
    dsimp only
    rw [hr]
    dsimp only
    rcases hnt : gNewTemp s2 with ⟨res, s3⟩
    have h3 : s3.code.instructions = s2.code.instructions := by
      have h4 := gNewTemp_instructions s2
      rw [hnt] at h4
      exact h4
    rcases opMap op.type with _ | oc
    · dsimp only
      exact ⟨d1 ++ d2, by rw [h3, h2, h1, List.append_assoc]⟩
    · dsimp only
      refine ⟨d1 ++ d2 ++ [⟨oc, some lv, some rv, some res⟩], ?_⟩
      rw [gEmit_instructions, h3, h2, h1]
      simp [List.append_assoc]
  | .unary op e, s => by
    obtain ⟨d1, h1⟩ := genExpr_append e s
    rcases he : genExpr e s with ⟨v, s1⟩
    rw [he] at h1
    rw [genExpr, he]
    dsimp only
    rcases hnt : gNewTemp s1 with ⟨res, s2⟩
    have h2 : s2.code.instructions = s1.code.instructions := by
      have h4 := gNewTemp_instructions s1
      rw [hnt] at h4
      exact h4
    by_cases hm : op.type = .MINUS
    · rw [if_pos hm]
      refine ⟨d1 ++ [⟨.NEG, some v, none, some res⟩], ?_⟩
      rw [gEmit_instructions, h2, h1]
      simp [List.append_assoc]
    · rw [if_neg hm]
      by_cases hn : op.type = .NOT
      · rw [if_pos hn]
        refine ⟨d1 ++ [⟨.NOT, some v, none, some res⟩], ?_⟩
        rw [gEmit_instructions, h2, h1]
        simp [List.append_assoc]
      · rw [if_neg hn]
        exact ⟨d1, by rw [h2, h1]⟩
  | .assign id v, s => by
    obtain ⟨d1, h1⟩ := genExpr_append v s
    rcases hv : genExpr v s with ⟨vv, s1⟩
    rw [hv] at h1
    rw [genExpr, hv]
    dsimp only
    refine ⟨d1 ++ [⟨.ASSIGN, some vv, none, some id⟩], ?_⟩
    rw [gEmit_instructions, h1]
    simp [List.append_assoc]
  | .call callee args, s => by
    obtain ⟨d1, h1⟩ := genArgs_append args s
    have hbody : ∀ (fname res : String) (s2 : GenState),
        gNewTemp (genArgs args s) = (res, s2) →
        (gEmit s2 .CALL (some (.s fname)) (some (.i args.length)) (some res)).code.instructions =
          s.code.instructions ++
            (d1 ++ [⟨.CALL, some (.s fname), some (.i args.length), some res⟩]) := by
      intro fname res s2 hnt
      have h2 : s2.code.instructions = (genArgs args s).code.instructions := by
        have h4 := gNewTemp_instructions (genArgs args s)
        rw [hnt] at h4
        exact h4
      rw [gEmit_instructions, h2, h1]
      simp [List.append_assoc]
    rcases callee with ⟨l2, o2, r2⟩ | ⟨o2, e2⟩ | ⟨i2, v2⟩ | ⟨c2, a2⟩ | n2 | nv2 | sv2 | b2
    · rw [genExpr]
      on_goal 2 => simp
      dsimp only
      rcases hnt : gNewTemp (genArgs args s) with ⟨res, s2⟩
      dsimp only
      exact ⟨_, hbody "unknown" res s2 hnt⟩
    · rw [genExpr]
      on_goal 2 => simp
      dsimp only
      rcases hnt : gNewTemp (genArgs args s) with ⟨res, s2⟩
      dsimp only
      exact ⟨_, hbody "unknown" res s2 hnt⟩
    · rw [genExpr]
      on_goal 2 => simp
      dsimp only
      rcases hnt : gNewTemp (genArgs args s) with ⟨res, s2⟩
      dsimp only
      exact ⟨_, hbody "unknown" res s2 hnt⟩
    · rw [genExpr]
      on_goal 2 => simp
      dsimp only
      rcases hnt : gNewTemp (genArgs args s) with ⟨res, s2⟩
      dsimp only
      exact ⟨_, hbody "unknown" res s2 hnt⟩
    · rw [genExpr]
      dsimp only
      rcases hnt : gNewTemp (genArgs args s) with ⟨res, s2⟩
      dsimp only
      exact ⟨_, hbody n2 res s2 hnt⟩
    · rw [genExpr]
      on_goal 2 => simp
      dsimp only
      rcases hnt : gNewTemp (genArgs args s) with ⟨res, s2⟩
      dsimp only
      exact ⟨_, hbody "unknown" res s2 hnt⟩
    · rw [genExpr]
      on_goal 2 => simp
      dsimp only
      rcases hnt : gNewTemp (genArgs args s) with ⟨res, s2⟩
      dsimp only
      exact ⟨_, hbody "unknown" res s2 hnt⟩
    · rw [genExpr]
      on_goal 2 => simp
      dsimp only
      rcases hnt : gNewTemp (genArgs args s) with ⟨res, s2⟩
      dsimp only
      exact ⟨_, hbody "unknown" res s2 hnt⟩
  | .ident n, s => by
    rw [genExpr]
    exact ⟨[], by simp⟩
  | .num (.intV n), s => by
    rw [genExpr]
    exact ⟨[], by simp⟩
  | .num (.floatV r), s => by
    rw [genExpr]
    exact ⟨[], by simp⟩
  | .strLit v, s => by
    rw [genExpr]
    exact ⟨[], by simp⟩
  | .boolLit b, s => by
    rw [genExpr]
    exact ⟨[], by simp⟩

theorem genArgs_append : ∀ (es : List Expr) (s : GenState),
    ∃ d, (genArgs es s).code.instructions = s.code.instructions ++ d
  | [], s => by
    rw [genArgs]
    exact ⟨[], by simp⟩
  | a :: rest, s => by
    obtain ⟨d1, h1⟩ := genExpr_append a s
    rcases ha : genExpr a s with ⟨av, s1⟩
    rw [ha] at h1
    obtain ⟨d2, h2⟩ := genArgs_append rest (gEmit s1 .PARAM (some av) none none)
    rw [genArgs, ha]
    dsimp only
    refine ⟨d1 ++ [⟨.PARAM, some av, none, none⟩] ++ d2, ?_⟩
    rw [h2, gEmit_instructions, h1]
    simp [List.append_assoc]

end

theorem genForRest_append (cond upd : Option Expr)
    (visit : GenState → GenState)
    (hv : ∀ s0 : GenState, ∃ d, (visit s0).code.instructions = s0.code.instructions ++ d)
    (s1 : GenState) :
    ∃ d, (genForRest cond upd visit s1).code.instructions = s1.code.instructions ++ d := by
  rw [genForRest]
  rcases hl1 : gNewLabel s1 with ⟨startL, s2⟩
  have h1 : s2.code.instructions = s1.code.instructions := by
    have h4 := gNewLabel_instructions s1
    rw [hl1] at h4
    exact h4
  dsimp only
  rcases hl2 : gNewLabel s2 with ⟨endL, s3⟩
  have h2 : s3.code.instructions = s2.code.instructions := by
    have h4 := gNewLabel_instructions s2
    rw [hl2] at h4
    exact h4
  dsimp only
  rcases hl3 : gNewLabel s3 with ⟨continueL, s4⟩
  have h3 : s4.code.instructions = s3.code.instructions := by
    have h4 := gNewLabel_instructions s3
    rw [hl3] at h4
    exact h4
  dsimp only
  rcases cond with _ | c0
  · dsimp only
    obtain ⟨dB, hB⟩ := hv (gEmit
      { s4 with breakLabels := s4.breakLabels ++ [endL],
                continueLabels := s4.continueLabels ++ [continueL] }
      .LABEL (some (.s startL)) none none)
    rcases upd with _ | u0
    · dsimp only
      refine ⟨[⟨.LABEL, some (.s startL), none, none⟩] ++ dB ++
        [⟨.LABEL, some (.s continueL), none, none⟩, ⟨.GOTO, some (.s startL), none, none⟩,
         ⟨.LABEL, some (.s endL), none, none⟩], ?_⟩
      dsimp only
      simp only [gEmit_instructions]
      rw [hB]
      simp only [gEmit_instructions]
      rw [h3, h2, h1]
      simp [List.append_assoc]
    · dsimp only
      obtain ⟨dU, hU⟩ := genExpr_append u0
        (gEmit (visit (gEmit
          { s4 with breakLabels := s4.breakLabels ++ [endL],
                    continueLabels := s4.continueLabels ++ [continueL] }
          .LABEL (some (.s startL)) none none))
          .LABEL (some (.s continueL)) none none)
      refine ⟨[⟨.LABEL, some (.s startL), none, none⟩] ++ dB ++
        [⟨.LABEL, some (.s continueL), none, none⟩] ++ dU ++
        [⟨.GOTO, some (.s startL), none, none⟩, ⟨.LABEL, some (.s endL), none, none⟩], ?_⟩
      dsimp only
      simp only [gEmit_instructions]
      rw [hU]
      simp only [gEmit_instructions]
      rw [hB]
      simp only [gEmit_instructions]
      rw [h3, h2, h1]
      simp [List.append_assoc]
  · dsimp only
    obtain ⟨dCnd, hCnd⟩ := genExpr_append c0
      (gEmit
        { s4 with breakLabels := s4.breakLabels ++ [endL],
                  continueLabels := s4.continueLabels ++ [continueL] }
        .LABEL (some (.s startL)) none none)
    rcases hgc : genExpr c0
      (gEmit
        { s4 with breakLabels := s4.breakLabels ++ [endL],
                  continueLabels := s4.continueLabels ++ [continueL] }
        .LABEL (some (.s startL)) none none)
      with ⟨cv, s7a⟩
    rw [hgc] at hCnd
    dsimp only
    obtain ⟨dB, hB⟩ := hv (gEmit s7a .IF_FALSE (some cv) (some (.s endL)) none)
    rcases upd with _ | u0
    · dsimp only
      refine ⟨[⟨.LABEL, some (.s startL), none, none⟩] ++ dCnd ++
        [⟨.IF_FALSE, some cv, some (.s endL), none⟩] ++ dB ++
        [⟨.LABEL, some (.s continueL), none, none⟩, ⟨.GOTO, some (.s startL), none, none⟩,
         ⟨.LABEL, some (.s endL), none, none⟩], ?_⟩
      dsimp only
      simp only [gEmit_instructions]
      rw [hB]
      simp only [gEmit_instructions]
      rw [hCnd]
      simp only [gEmit_instructions]
      rw [h3, h2, h1]
      simp [List.append_assoc]
    · dsimp only
      obtain ⟨dU, hU⟩ := genExpr_append u0
        (gEmit (visit (gEmit s7a .IF_FALSE (some cv) (some (.s endL)) none))
          .LABEL (some (.s continueL)) none none)
      refine ⟨[⟨.LABEL, some (.s startL), none, none⟩] ++ dCnd ++
        [⟨.IF_FALSE, some cv, some (.s endL), none⟩] ++ dB ++
        [⟨.LABEL, some (.s continueL), none, none⟩] ++ dU ++
        [⟨.GOTO, some (.s startL), none, none⟩, ⟨.LABEL, some (.s endL), none, none⟩], ?_⟩
      dsimp only
      simp only [gEmit_instructions]
      rw [hU]
      simp only [gEmit_instructions]
      rw [hB]
      simp only [gEmit_instructions]
      rw [hCnd]
      simp only [gEmit_instructions]
      rw [h3, h2, h1]
      simp [List.append_assoc]

mutual

/- Statement generation only appends instructions. -/
theorem genStmt_append : ∀ (stmt : Stmt) (s : GenState),
    ∃ d, (genStmt stmt s).code.instructions = s.code.instructions ++ d
  | .varDecl vt id none, s => by
    rw [genStmt]
    exact ⟨[], by simp⟩
  | .varDecl vt id (some e), s => by
    obtain ⟨d1, h1⟩ := genExpr_append e s
    rw [genStmt]
    dsimp only
    rcases he : genExpr e s with ⟨v, s1⟩
    rw [he] at h1
    dsimp only
    refine ⟨d1 ++ [⟨.ASSIGN, some v, none, some id⟩], ?_⟩
    rw [gEmit_instructions, h1]
    simp [List.append_assoc]
  | .funcDecl name ps body, s => by
    rw [genStmt]
    dsimp only
    obtain ⟨dB, hB⟩ := genStmt_append body
      (gEmit { s with currentFunction := some name } .FUNC_BEGIN (some (.s name)) none none)
    rcases hlast : (genStmt body
        (gEmit { s with currentFunction := some name } .FUNC_BEGIN (some (.s name)) none none)
        ).code.instructions.getLast? with _ | last
    · dsimp only
      refine ⟨[⟨.FUNC_BEGIN, some (.s name), none, none⟩] ++ dB ++
        [⟨.RETURN, none, none, none⟩, ⟨.FUNC_END, some (.s name), none, none⟩], ?_⟩
      simp only [gEmit_instructions]
      rw [hB]
      simp only [gEmit_instructions]
      simp [List.append_assoc]
    · dsimp only
      by_cases hr : last.op ≠ .RETURN
      · rw [if_pos hr]
        refine ⟨[⟨.FUNC_BEGIN, some (.s name), none, none⟩] ++ dB ++
          [⟨.RETURN, none, none, none⟩, ⟨.FUNC_END, some (.s name), none, none⟩], ?_⟩
        simp only [gEmit_instructions]
        rw [hB]
        simp only [gEmit_instructions]
        simp [List.append_assoc]
      · rw [if_neg hr]
        refine ⟨[⟨.FUNC_BEGIN, some (.s name), none, none⟩] ++ dB ++
          [⟨.FUNC_END, some (.s name), none, none⟩], ?_⟩
        simp only [gEmit_instructions]
        rw [hB]
        simp only [gEmit_instructions]
        simp [List.append_assoc]
  | .block stmts, s => by
    rw [genStmt]
    exact genStmts_append stmts s
  | .ifS c t none, s => by
    rw [genStmt]
    dsimp only
    obtain ⟨dC, hC⟩ := genExpr_append c s
    rcases hc : genExpr c s with ⟨cv, s1⟩
    rw [hc] at hC
    dsimp only
    rcases hl1 : gNewLabel s1 with ⟨elseL, s2⟩
    have h2 : s2.code.instructions = s1.code.instructions := by
      have h4 := gNewLabel_instructions s1
      rw [hl1] at h4
      exact h4
    dsimp only
    rcases hl2 : gNewLabel s2 with ⟨endL, s3⟩
    have h3 : s3.code.instructions = s2.code.instructions := by
      have h4 := gNewLabel_instructions s2
      rw [hl2] at h4
      exact h4
    dsimp only
    obtain ⟨dT, hT⟩ := genStmt_append t (gEmit s3 .IF_FALSE (some cv) (some (.s elseL)) none)
    refine ⟨dC ++ [⟨.IF_FALSE, some cv, some (.s elseL), none⟩] ++ dT ++
      [⟨.GOTO, some (.s endL), none, none⟩, ⟨.LABEL, some (.s elseL), none, none⟩,
       ⟨.LABEL, some (.s endL), none, none⟩], ?_⟩
    simp only [gEmit_instructions]
    rw [hT]
    simp only [gEmit_instructions]
    rw [h3, h2, hC]
    simp [List.append_assoc]
  | .ifS c t (some els), s => by
    rw [genStmt]
    dsimp only
    obtain ⟨dC, hC⟩ := genExpr_append c s
    rcases hc : genExpr c s with ⟨cv, s1⟩
    rw [hc] at hC
    dsimp only
    rcases hl1 : gNewLabel s1 with ⟨elseL, s2⟩
    have h2 : s2.code.instructions = s1.code.instructions := by
      have h4 := gNewLabel_instructions s1
      rw [hl1] at h4
      exact h4
    dsimp only
    rcases hl2 : gNewLabel s2 with ⟨endL, s3⟩
    have h3 : s3.code.instructions = s2.code.instructions := by
      have h4 := gNewLabel_instructions s2
      rw [hl2] at h4
      exact h4
    dsimp only
    obtain ⟨dT, hT⟩ := genStmt_append t (gEmit s3 .IF_FALSE (some cv) (some (.s elseL)) none)
    obtain ⟨dE, hE⟩ := genStmt_append els
      (gEmit (gEmit (genStmt t (gEmit s3 .IF_FALSE (some cv) (some (.s elseL)) none))
        .GOTO (some (.s endL)) none none) .LABEL (some (.s elseL)) none none)
    refine ⟨dC ++ [⟨.IF_FALSE, some cv, some (.s elseL), none⟩] ++ dT ++
      [⟨.GOTO, some (.s endL), none, none⟩, ⟨.LABEL, some (.s elseL), none, none⟩] ++
      dE ++ [⟨.LABEL, some (.s endL), none, none⟩], ?_⟩
    simp only [gEmit_instructions]
    rw [hE]
    simp only [gEmit_instructions]
    rw [hT]
    simp only [gEmit_instructions]
    rw [h3, h2, hC]
    simp [List.append_assoc]
  | .whileS c body, s => by
    rw [genStmt]
    dsimp only
    rcases hl1 : gNewLabel s with ⟨startL, s1⟩
    have h1 : s1.code.instructions = s.code.instructions := by
      have h4 := gNewLabel_instructions s
      rw [hl1] at h4
      exact h4
    dsimp only
    rcases hl2 : gNewLabel s1 with ⟨endL, s2⟩
    have h2 : s2.code.instructions = s1.code.instructions := by
      have h4 := gNewLabel_instructions s1
      rw [hl2] at h4
      exact h4
    dsimp only
    obtain ⟨dC, hC⟩ := genExpr_append c
      (gEmit
        { s2 with breakLabels := s2.breakLabels ++ [endL],
                  continueLabels := s2.continueLabels ++ [startL] }
        .LABEL (some (.s startL)) none none)
    rcases hc : genExpr c
      (gEmit
        { s2 with breakLabels := s2.breakLabels ++ [endL],
                  continueLabels := s2.continueLabels ++ [startL] }
        .LABEL (some (.s startL)) none none) with ⟨cv, s5⟩
    rw [hc] at hC
    dsimp only
    obtain ⟨dB, hB⟩ := genStmt_append body (gEmit s5 .IF_FALSE (some cv) (some (.s endL)) none)
    refine ⟨[⟨.LABEL, some (.s startL), none, none⟩] ++ dC ++
      [⟨.IF_FALSE, some cv, some (.s endL), none⟩] ++ dB ++
      [⟨.GOTO, some (.s startL), none, none⟩, ⟨.LABEL, some (.s endL), none, none⟩], ?_⟩
    dsimp only
    simp only [gEmit_instructions]
    rw [hB]
    simp only [gEmit_instructions]
    rw [hC]
    simp only [gEmit_instructions]
    rw [h2, h1]
    simp [List.append_assoc]
  | .forS none cond upd body, s => by
    rw [genStmt]
    exact genForRest_append cond upd (genStmt body) (fun s0 => genStmt_append body s0) s
  | .forS (some i0) cond upd body, s => by
    rw [genStmt]
    obtain ⟨d0, h0⟩ := genStmt_append i0 s
    obtain ⟨d1, h1⟩ := genForRest_append cond upd (genStmt body)
      (fun s0 => genStmt_append body s0) (genStmt i0 s)
    exact ⟨d0 ++ d1, by rw [h1, h0, List.append_assoc]⟩
  | .ret none, s => by
    rw [genStmt]
    refine ⟨[⟨.RETURN, none, none, none⟩], ?_⟩
    rw [gEmit_instructions]
  | .ret (some e), s => by
    obtain ⟨d1, h1⟩ := genExpr_append e s
    rw [genStmt]
    dsimp only
    rcases he : genExpr e s with ⟨vv, s1⟩
    rw [he] at h1
    dsimp only
    refine ⟨d1 ++ [⟨.RETURN, some vv, none, none⟩], ?_⟩
    rw [gEmit_instructions, h1]
    simp [List.append_assoc]
  | .printS e, s => by
    obtain ⟨d1, h1⟩ := genExpr_append e s
    rw [genStmt]
    dsimp only
    rcases he : genExpr e s with ⟨v, s1⟩
    rw [he] at h1
    dsimp only
    refine ⟨d1 ++ [⟨.PRINT, some v, none, none⟩], ?_⟩
    rw [gEmit_instructions, h1]
    simp [List.append_assoc]
  | .exprS e, s => by
    obtain ⟨d1, h1⟩ := genExpr_append e s
    rw [genStmt]
    exact ⟨d1, h1⟩

theorem genStmts_append : ∀ (ss : List Stmt) (s : GenState),
    ∃ d, (genStmts ss s).code.instructions = s.code.instructions ++ d
  | [], s => by
    rw [genStmts]
    exact ⟨[], by simp⟩
  | x :: ss, s => by
    obtain ⟨d1, h1⟩ := genStmt_append x s
    obtain ⟨d2, h2⟩ := genStmts_append ss (genStmt x s)
    rw [genStmts]
    exact ⟨d1 ++ d2, by rw [h2, h1, List.append_assoc]⟩

end

/-- The if-lowering shape: condition code, IF_FALSE to the (fresh) else
label, then-branch code, GOTO the (fresh) end label, the else label, the
else-branch code when present, the end label. -/
theorem genStmt_if_shape :
    ∀ (c : Expr) (t : Stmt) (eb : Option Stmt) (s : GenState),
    ∃ (cv : IRVal) (s1 : GenState) (dC dT dE : List Instr),
      genExpr c s = (cv, s1) ∧
      s1.code.instructions = s.code.instructions ++ dC ∧
      (genStmt t (gEmit (gNewLabel (gNewLabel s1).2).2 .IF_FALSE (some cv)
          (some (.s (gNewLabel s1).1)) none)).code.instructions =
        (gEmit (gNewLabel (gNewLabel s1).2).2 .IF_FALSE (some cv)
          (some (.s (gNewLabel s1).1)) none).code.instructions ++ dT ∧
      (eb = none → dE = []) ∧
      (gNewLabel s1).1 = labelName (s1.code.labelCounter + 1) ∧
      (gNewLabel (gNewLabel s1).2).1 = labelName (s1.code.labelCounter + 2) ∧
      (genStmt (.ifS c t eb) s).code.instructions =
        s.code.instructions ++ dC ++
        [⟨.IF_FALSE, some cv, some (.s (labelName (s1.code.labelCounter + 1))), none⟩] ++ dT ++
        [⟨.GOTO, some (.s (labelName (s1.code.labelCounter + 2))), none, none⟩,
         ⟨.LABEL, some (.s (labelName (s1.code.labelCounter + 1))), none, none⟩] ++ dE ++
        [⟨.LABEL, some (.s (labelName (s1.code.labelCounter + 2))), none, none⟩] := by
  intro c t eb s
  obtain ⟨dC, hC⟩ := genExpr_append c s
  rcases hc : genExpr c s with ⟨cv, s1⟩
  rw [hc] at hC
  obtain ⟨dT, hT⟩ := genStmt_append t (gEmit (gNewLabel (gNewLabel s1).2).2 .IF_FALSE (some cv)
    (some (.s (gNewLabel s1).1)) none)
  have hT0 := hT
  rcases eb with _ | els
  · refine ⟨cv, s1, dC, dT, [], rfl, hC, hT0, fun _ => rfl, rfl, rfl, ?_⟩
    rw [genStmt]
    dsimp only
    rw [hc]
    dsimp only
    rcases hl1 : gNewLabel s1 with ⟨elseL, s2⟩
    dsimp only
    rcases hl2 : gNewLabel s2 with ⟨endL, s3⟩
    dsimp only
    rw [hl1] at hT
    dsimp only at hT
    rw [hl2] at hT
    dsimp only at hT
    have heL : labelName (s1.code.labelCounter + 1) = elseL := by
      rw [show labelName (s1.code.labelCounter + 1) = (gNewLabel s1).1 from rfl, hl1]
    have heN : labelName (s1.code.labelCounter + 2) = endL := by
      rw [show labelName (s1.code.labelCounter + 2) = (gNewLabel (gNewLabel s1).2).1 from rfl,
        hl1]
      rw [show ((elseL, s2) : String × GenState).2 = s2 from rfl, hl2]
    have h2 : s2.code.instructions = s1.code.instructions := by
      have h4 := gNewLabel_instructions s1
      rw [hl1] at h4
      exact h4
    have h3 : s3.code.instructions = s2.code.instructions := by
      have h4 := gNewLabel_instructions s2
      rw [hl2] at h4
      exact h4
    rw [heL, heN]
    simp only [gEmit_instructions]
    rw [hT]
    simp only [gEmit_instructions]
    rw [h3, h2, hC]
    simp [List.append_assoc]
  · obtain ⟨dE, hE⟩ := genStmt_append els
      (gEmit (gEmit (genStmt t (gEmit (gNewLabel (gNewLabel s1).2).2 .IF_FALSE (some cv)
          (some (.s (gNewLabel s1).1)) none))
        .GOTO (some (.s (gNewLabel (gNewLabel s1).2).1)) none none)
        .LABEL (some (.s (gNewLabel s1).1)) none none)
    refine ⟨cv, s1, dC, dT, dE, rfl, hC, hT0, fun h => Option.noConfusion h, rfl, rfl, ?_⟩
    rw [genStmt]
    dsimp only
    rw [hc]
    dsimp only
    rcases hl1 : gNewLabel s1 with ⟨elseL, s2⟩
    dsimp only
    rcases hl2 : gNewLabel s2 with ⟨endL, s3⟩
    dsimp only
    rw [hl1] at hT hE
    dsimp only at hT hE
    rw [hl2] at hT hE
    dsimp only at hT hE
    have heL : labelName (s1.code.labelCounter + 1) = elseL := by
      rw [show labelName (s1.code.labelCounter + 1) = (gNewLabel s1).1 from rfl, hl1]
    have heN : labelName (s1.code.labelCounter + 2) = endL := by
      rw [show labelName (s1.code.labelCounter + 2) = (gNewLabel (gNewLabel s1).2).1 from rfl,
        hl1]
      rw [show ((elseL, s2) : String × GenState).2 = s2 from rfl, hl2]
    have h2 : s2.code.instructions = s1.code.instructions := by
      have h4 := gNewLabel_instructions s1
      rw [hl1] at h4
      exact h4
    have h3 : s3.code.instructions = s2.code.instructions := by
      have h4 := gNewLabel_instructions s2
      rw [hl2] at h4
      exact h4
    rw [heL, heN]
    simp only [gEmit_instructions]
    rw [hE]
    simp only [gEmit_instructions]
    rw [hT]
    simp only [gEmit_instructions]
    rw [h3, h2, hC]
    simp [List.append_assoc]


/-- C1: lowering an if-statement emits, in this order: the condition's
instructions, IF_FALSE on the condition value targeting the else label
(the next fresh label), the then-branch's instructions, GOTO the end
label (the second fresh label), LABEL else, the else-branch's
instructions when the branch is present (an empty segment otherwise),
and LABEL end; and for the program
`if (x > 5) \x7b print("big"); \x7d else \x7b print("small"); \x7d` the
pipeline IR is exactly the seven-instruction sequence with one IF_FALSE,
one GOTO and two LABELs, and the emitted structured output lists the big
branch before the small branch. -/
theorem claim_C1 :
    (∀ (c : Expr) (t : Stmt) (eb : Option Stmt) (s : GenState),
    ∃ (cv : IRVal) (s1 : GenState) (dC dT dE : List Instr),
      genExpr c s = (cv, s1) ∧
      s1.code.instructions = s.code.instructions ++ dC ∧
      (genStmt t (gEmit (gNewLabel (gNewLabel s1).2).2 .IF_FALSE (some cv)
          (some (.s (gNewLabel s1).1)) none)).code.instructions =
        (gEmit (gNewLabel (gNewLabel s1).2).2 .IF_FALSE (some cv)
          (some (.s (gNewLabel s1).1)) none).code.instructions ++ dT ∧
      (eb = none → dE = []) ∧
      (gNewLabel s1).1 = labelName (s1.code.labelCounter + 1) ∧
      (gNewLabel (gNewLabel s1).2).1 = labelName (s1.code.labelCounter + 2) ∧
      (genStmt (.ifS c t eb) s).code.instructions =
        s.code.instructions ++ dC ++
        [⟨.IF_FALSE, some cv, some (.s (labelName (s1.code.labelCounter + 1))), none⟩] ++ dT ++
        [⟨.GOTO, some (.s (labelName (s1.code.labelCounter + 2))), none, none⟩,
         ⟨.LABEL, some (.s (labelName (s1.code.labelCounter + 1))), none, none⟩] ++ dE ++
        [⟨.LABEL, some (.s (labelName (s1.code.labelCounter + 2))), none, none⟩]) ∧
    irInstructions "if (x > 5) \x7b print(\"big\"); \x7d else \x7b print(\"small\"); \x7d" =
      [⟨.GT, some (.s "x"), some (.i 5), some "t1"⟩,
       ⟨.IF_FALSE, some (.s "t1"), some (.s "L1"), none⟩,
       ⟨.PRINT, some (.s "\"big\""), none, none⟩,
       ⟨.GOTO, some (.s "L2"), none, none⟩,
       ⟨.LABEL, some (.s "L1"), none, none⟩,
       ⟨.PRINT, some (.s "\"small\""), none, none⟩,
       ⟨.LABEL, some (.s "L2"), none, none⟩] ∧
    ((irInstructions "if (x > 5) \x7b print(\"big\"); \x7d else \x7b print(\"small\"); \x7d").filter (fun i => i.op == .IF_FALSE)).length = 1 ∧
    ((irInstructions "if (x > 5) \x7b print(\"big\"); \x7d else \x7b print(\"small\"); \x7d").filter (fun i => i.op == .GOTO)).length = 1 ∧
    ((irInstructions "if (x > 5) \x7b print(\"big\"); \x7d else \x7b print(\"small\"); \x7d").filter (fun i => i.op == .LABEL)).length = 2 ∧
    outputLinesOf "if (x > 5) \x7b print(\"big\"); \x7d else \x7b print(\"small\"); \x7d" =
      ["#!/usr/bin/env python3", "# Código generado por el compilador", "",
       "t1 = x > 5", "if t1:", "    print(\"big\")", "else:", "    print(\"small\")",
       "print(\"big\")", "print(\"small\")"] :=
  ⟨genStmt_if_shape, rfl, by decide, by decide, by decide, by decide⟩

theorem claim_C1_witness :
    ∃ (cv : IRVal) (s1 : GenState) (dC dT dE : List Instr),
      genExpr (.ident "x") mkGenState = (cv, s1) ∧
      s1.code.instructions = mkGenState.code.instructions ++ dC ∧
      (genStmt (.printS (.num (.intV 1)))
          (gEmit (gNewLabel (gNewLabel s1).2).2 .IF_FALSE (some cv)
            (some (.s (gNewLabel s1).1)) none)).code.instructions =
        (gEmit (gNewLabel (gNewLabel s1).2).2 .IF_FALSE (some cv)
          (some (.s (gNewLabel s1).1)) none).code.instructions ++ dT ∧
      ((none : Option Stmt) = none → dE = []) ∧
      (gNewLabel s1).1 = labelName (s1.code.labelCounter + 1) ∧
      (gNewLabel (gNewLabel s1).2).1 = labelName (s1.code.labelCounter + 2) ∧
      (genStmt (.ifS (.ident "x") (.printS (.num (.intV 1))) none)
          mkGenState).code.instructions =
        mkGenState.code.instructions ++ dC ++
        [⟨.IF_FALSE, some cv, some (.s (labelName (s1.code.labelCounter + 1))), none⟩] ++ dT ++
        [⟨.GOTO, some (.s (labelName (s1.code.labelCounter + 2))), none, none⟩,
         ⟨.LABEL, some (.s (labelName (s1.code.labelCounter + 1))), none, none⟩] ++ dE ++
        [⟨.LABEL, some (.s (labelName (s1.code.labelCounter + 2))), none, none⟩] :=
  claim_C1.1 (.ident "x") (.printS (.num (.intV 1))) none mkGenState

end MiniC
